import Mathlib

/-!
Facter: DMI facts, Linux virtualization detection, fact values and
PowerShell external facts.

A shallow embedding of `lib/src/facts/linux/dmi_resolver.cc`,
`lib/src/facts/linux/virtualization_resolver.cc`, `lib/src/facts/scalar_value.cc`
and `lib/src/facts/external/windows/powershell_resolver.cc`.

`std::string` is embedded as `String`; every helper works on the character
list `String.data`, so that all definitions are structurally recursive and
evaluate inside the kernel.
-/

namespace facter

/-! ## String helpers (`facter/util/string.hpp`) -/

namespace util

/-- The six characters of the C locale for which `isspace` holds. -/
def isspace (c : Char) : Bool :=
  c = ' ' || c = '\t' || c = '\n' || c = '\x0b' || c = '\x0c' || c = '\r'

/-- Modelled from the spec: `facter::util::starts_with` (declared in
`facter/util/string.hpp`, which is not under src/): the string begins with the
given prefix. -/
def starts_with (str pre : String) : Bool :=
  pre.data.isPrefixOf str.data

/-- Modelled from the spec: `facter::util::to_lower` (declared in
`facter/util/string.hpp`, which is not under src/): every character is
lower-cased; only `A`..`Z` change. -/
def to_lower (str : String) : String :=
  ⟨str.data.map Char.toLower⟩

/-- Modelled from the spec: `facter::util::trim` (declared in
`facter/util/string.hpp`, which is not under src/): leading and trailing
whitespace is removed. -/
def trim (str : String) : String :=
  ⟨((str.data.dropWhile isspace).reverse.dropWhile isspace).reverse⟩

/-- Fields of a character list separated by `delim`; `cur` is the field being
read, in reverse. -/
def splitAux (delim : Char) : List Char → List Char → List String
  | [], cur => [⟨cur.reverse⟩]
  | c :: cs, cur =>
    if c = delim then ⟨cur.reverse⟩ :: splitAux delim cs []
    else splitAux delim cs (c :: cur)

/-- Modelled from the spec: `facter::util::split(str, delim)` (declared in
`facter/util/string.hpp`, which is not under src/): the fields of `str`
separated by the delimiter character, in order. -/
def split (str : String) (delim : Char) : List String :=
  splitAux delim str.data []

/-- Whitespace-separated tokens of a character list; `cur` is the token being
read, in reverse. -/
def tokensAux : List Char → List Char → List String
  | [], cur => if cur = [] then [] else [⟨cur.reverse⟩]
  | c :: cs, cur =>
    if isspace c then
      (if cur = [] then tokensAux cs [] else ⟨cur.reverse⟩ :: tokensAux cs [])
    else tokensAux cs (c :: cur)

/-- Modelled from the spec: the one-argument call `facter::util::split(str)`
(declared in `facter/util/string.hpp`, which is not under src/): the
whitespace-separated tokens of `str`, in order. -/
def split_whitespace (str : String) : List String :=
  tokensAux str.data []

/-- The test `haystack.find(needle) != string::npos` on character lists: the
needle occurs at some position of the haystack. -/
def findAux (needle : List Char) : List Char → Bool
  | [] => needle.isPrefixOf []
  | c :: cs => needle.isPrefixOf (c :: cs) || findAux needle cs

/-- The test `str.find(needle) != string::npos` of `std::string`. -/
def contains (str needle : String) : Bool :=
  findAux needle.data str.data

/-- Modelled from the spec: `file::each_line` and `execution::each_line`
(declared in `facter/util/file.hpp` and `facter/execution/execution.hpp`, which
are not under src/): the lines are passed to the callback in order until the
callback answers "stop" (`false`). The variables the callback captures by
reference are threaded through as the state `s`. -/
def each_line {σ : Type} (lines : List String) (callback : σ → String → σ × Bool) (s : σ) : σ :=
  match lines with
  | [] => s
  | line :: rest =>
    match callback s line with
    | (s', true) => each_line rest callback s'
    | (s', false) => s'

end util

open util

/-! ## `dmi_resolver::get_chassis_description` -/

namespace dmi_resolver

/-- The static map `descriptions` of `get_chassis_description`. -/
def descriptions : List (String × String) :=
  [ ("1",  "Other"),
    -- 2 is Unknown, which is the output for every code that is not in the map
    ("3",  "Desktop"),
    ("4",  "Low Profile Desktop"),
    ("5",  "Pizza Box"),
    ("6",  "Mini Tower"),
    ("7",  "Tower"),
    ("8",  "Portable"),
    ("9",  "Laptop"),
    ("10", "Notebook"),
    ("11", "Hand Held"),
    ("12", "Docking Station"),
    ("13", "All in One"),
    ("14", "Sub Notebook"),
    ("15", "Space-Saving"),
    ("16", "Lunch Box"),
    ("17", "Main System Chassis"),
    ("18", "Expansion Chassis"),
    ("19", "SubChassis"),
    ("20", "Bus Expansion Chassis"),
    ("21", "Peripheral Chassis"),
    ("22", "Storage Chassis"),
    ("23", "Rack Mount Chassis"),
    ("24", "Sealed-Case PC") ]

/-- The lookup `descriptions.find(type)` followed by the fallback
`"Unknown"`. -/
def get_chassis_description (type : String) : String :=
  match descriptions.lookup type with
  | some description => description
  | none => "Unknown"

end dmi_resolver

/-! ## `virtualization_resolver` -/

/-- The label constants `vm::...` of `facter/facts/virtual_machine.hpp`. The
header is not under src/, so the labels are a parameter of the embedding. -/
structure virtual_machine where
  docker : String
  lxc : String
  gce : String
  xen_hardware : String
  xen_privileged : String
  xen_unprivileged : String
  zlinux : String
  vserver : String
  vserver_host : String
  openvz_hn : String
  openvz_ve : String
  vmware : String
  virtualbox : String
  parallels : String
  kvm : String
  hyperv : String
  redhat_ev : String
  ovirt : String

/-- The two facts the resolver reads from the collection:
`facts.get<string_value>(name)`, `none` for a null pointer. -/
structure collection where
  bios_vendor : Option String
  product_name : Option String

/-- The state of the host the resolver observes. -/
structure host where
  /-- The lines `file::each_line(path, ...)` passes to its callback; no lines
  when the file cannot be opened. -/
  file_lines : String → List String
  /-- The lines `execution::each_line(command, ...)` passes to its callback; no
  lines when the command cannot be run. -/
  command_lines : String → List String
  /-- The output of `execute(command)`; empty when the command cannot be run. -/
  execute : String → String
  /-- The result of `is_directory(path, ec)`. -/
  is_directory : String → Bool
  /-- The result of `is_regular_file(path, ec)`. -/
  is_regular_file : String → Bool
  /-- The result of `boost::filesystem::is_empty(path, ec)`. -/
  is_empty : String → Bool

namespace virtualization_resolver

/-- The line callback of `get_cgroup_vm`; the state is the captured `value`. -/
def cgroup_callback (vm : virtual_machine) (value : String) (line : String) : String × Bool :=
  let parts := split line ':'
  if h : parts.length < 3 then
    (value, true)
  else
    let root := parts[2]
    if starts_with root "/docker/" then
      (vm.docker, false)
    else if starts_with root "/lxc/" then
      (vm.lxc, false)
    else
      (value, true)

def get_cgroup_vm (vm : virtual_machine) (sys : host) : String :=
  let value : String := ""
  let value := each_line (sys.file_lines "/proc/1/cgroup") (cgroup_callback vm) value
  value

def get_gce_vm (vm : virtual_machine) (facts : collection) : String :=
  match facts.bios_vendor with
  | some vendor => if contains vendor "Google" then vm.gce else ""
  | none => ""

/-- The line callback of `get_vserver_vm`. The callback declares its own
`value` (a reference to the trimmed second part), which hides the captured
`value` of the enclosing function: the label is assigned to that inner
variable, and the captured one, threaded here as `outer`, is left as it
was. -/
def vserver_callback (vm : virtual_machine) (outer : String) (line : String) : String × Bool :=
  let parts := split line ':'
  if h : parts.length ≠ 2 then
    (outer, true)
  else
    let key := trim parts[0]
    let value := trim parts[1]
    if key = "s_context" ∨ key = "VxID" then
      let value := if value = "0" then vm.vserver_host else vm.vserver
      let _ := value
      (outer, false)
    else
      (outer, true)

def get_vserver_vm (vm : virtual_machine) (sys : host) : String :=
  let value : String := ""
  let value := each_line (sys.file_lines "/proc/self/status") (vserver_callback vm) value
  value

/-- The line callback of `get_what_vm`; the state is the captured `value`. -/
def what_callback (value : String) (line : String) : String × Bool :=
  -- Some versions of virt-what dump error/warning messages to stdout
  if starts_with line "virt-what:" then
    (value, true)
  else
    -- Take the first line that isn't an error/warning
    (line, false)

def get_what_vm (vm : virtual_machine) (sys : host) : String :=
  let value : String := ""
  let value := each_line (sys.command_lines "virt-what") what_callback value
  -- Do some normalization of virt-what's output
  if value ≠ "" then
    let value := to_lower value
    if value = "linux_vserver" then get_vserver_vm vm sys
    else if value = "xen-hvm" then vm.xen_hardware
    else if value = "xen-dom0" then vm.xen_privileged
    else if value = "xen-domu" then vm.xen_unprivileged
    else if value = "ibm_systemz" then vm.zlinux
    else value
  else
    value

def get_vmware_vm (sys : host) : String :=
  let parts := split_whitespace (sys.execute "vmware -v")
  if h : parts.length < 2 then
    ""
  else
    to_lower (parts[0] ++ "_" ++ parts[1])

/-- The line callback of `get_openvz_vm`. As in `get_vserver_vm`, the label is
assigned to the callback's own `value`; the captured one is threaded as
`outer`. -/
def openvz_callback (vm : virtual_machine) (outer : String) (line : String) : String × Bool :=
  let parts := split line ':'
  if h : parts.length ≠ 2 then
    (outer, true)
  else
    let key := trim parts[0]
    let value := trim parts[1]
    if key = "envID" then
      let value := if value = "0" then vm.openvz_hn else vm.openvz_ve
      let _ := value
      (outer, false)
    else
      (outer, true)

def get_openvz_vm (vm : virtual_machine) (sys : host) : String :=
  -- Detect if it's a OpenVZ without being CloudLinux
  if !sys.is_directory "/proc/vz" ||
     sys.is_regular_file "/proc/lve/list" ||
     sys.is_empty "/proc/vz" then
    ""
  else
    let value : String := ""
    let value := each_line (sys.file_lines "/proc/self/status") (openvz_callback vm) value
    let _ := value
    ""

def get_xen_vm (vm : virtual_machine) (sys : host) : String :=
  -- Check for a required Xen file
  if !sys.is_regular_file "/proc/sys/xen" &&
     !sys.is_regular_file "/sys/bus/xen" &&
     !sys.is_regular_file "/proc/xen" then
    ""
  else if sys.is_regular_file "/dev/xen/evtchn" then
    vm.xen_privileged
  else if sys.is_regular_file "/proc/xen" then
    vm.xen_unprivileged
  else
    ""

/-- The static table `vms` of `get_product_name_vm`. -/
def vms (vm : virtual_machine) : List (String × String) :=
  [ ("VMware",          vm.vmware),
    ("VirtualBox",      vm.virtualbox),
    ("Parallels",       vm.parallels),
    ("KVM",             vm.kvm),
    ("Virtual Machine", vm.hyperv),
    ("RHEV Hypervisor", vm.redhat_ev),
    ("oVirt Node",      vm.ovirt),
    ("HVM domU",        vm.xen_hardware) ]

/-- The loop `for (auto const& vm : vms)` of `get_product_name_vm`. -/
def product_name_loop (value : String) : List (String × String) → String
  | [] => ""
  | entry :: rest =>
    if contains value entry.1 then entry.2 else product_name_loop value rest

def get_product_name_vm (vm : virtual_machine) (facts : collection) : String :=
  match facts.product_name with
  | none => ""
  | some value => product_name_loop value (vms vm)

def get_hypervisor (vm : virtual_machine) (sys : host) (facts : collection) : String :=
  -- First check for Docker/LXC
  let value := get_cgroup_vm vm sys
  -- Next check for Google Compute Engine
  let value := if value = "" then get_gce_vm vm facts else value
  -- Next check based on the virt-what command
  let value := if value = "" then get_what_vm vm sys else value
  -- Next check the vmware tool output
  let value := if value = "" then get_vmware_vm sys else value
  -- Next check for OpenVZ
  let value := if value = "" then get_openvz_vm vm sys else value
  -- Next check for VServer
  let value := if value = "" then get_vserver_vm vm sys else value
  -- Next check for Xen
  let value := if value = "" then get_xen_vm vm sys else value
  -- Next check the DMI product name for the VM
  let value := if value = "" then get_product_name_vm vm facts else value
  value

end virtualization_resolver

/-- A concrete choice of the labels, each named after its constant (the spec
gives "docker" for the docker label); used to evaluate the resolver on
concrete hosts. -/
def sample_labels : virtual_machine where
  docker := "docker"
  lxc := "lxc"
  gce := "gce"
  xen_hardware := "xen_hardware"
  xen_privileged := "xen_privileged"
  xen_unprivileged := "xen_unprivileged"
  zlinux := "zlinux"
  vserver := "vserver"
  vserver_host := "vserver_host"
  openvz_hn := "openvz_hn"
  openvz_ve := "openvz_ve"
  vmware := "vmware"
  virtualbox := "virtualbox"
  parallels := "parallels"
  kvm := "kvm"
  hyperv := "hyperv"
  redhat_ev := "redhat_ev"
  ovirt := "ovirt"

/-- A host on which every data source is unavailable. -/
def bare_host : host where
  file_lines := fun _ => []
  command_lines := fun _ => []
  execute := fun _ => ""
  is_directory := fun _ => false
  is_regular_file := fun _ => false
  is_empty := fun _ => false

/-- A collection in which neither fact is present. -/
def no_facts : collection where
  bios_vendor := none
  product_name := none

/-! ## Fact values (`facter/facts/scalar_value.hpp`, `scalar_value.cc`) -/

namespace rapidjson

/-- A `rapidjson::Value` as far as `to_json` sets it: a default-constructed
value is null, `SetString(chars, size)` makes it a string of exactly `size`
bytes, `SetInt64` a 64-bit integer, `SetBool` a boolean. -/
inductive Value where
  | null
  | string (chars : String)
  | int64 (i : Int)
  | bool (b : Bool)
deriving DecidableEq

end rapidjson

namespace YAML

/-- What is sent to a `YAML::Emitter` with `operator<<`: the manipulator
`DoubleQuoted`, a string, a 64-bit integer or a boolean. -/
inductive item where
  | DoubleQuoted
  | string (s : String)
  | int64 (i : Int)
  | bool (b : Bool)
deriving DecidableEq

/-- A `YAML::Emitter`, as the sequence of what has been sent to it. -/
abbrev Emitter := List item

/-- The text of a double-quoted YAML scalar: the escaped content between two
double quotes. The escaping is the emitter library's, a parameter here. -/
def double_quoted (escape : String → String) (s : String) : String :=
  "\"" ++ escape s ++ "\""

end YAML

/-- The instantiations of `scalar_value<T>` made in `scalar_value.cc`
(`string_value`, `integer_value`, `boolean_value`), each with its payload
`_value`. -/
inductive value where
  | string_value (_value : String)
  | integer_value (_value : Int)
  | boolean_value (_value : Bool)
deriving DecidableEq

namespace value

/-- The three specialisations of `scalar_value<T>::to_json`; the result is the
`rapidjson::Value` the function sets. -/
def to_json : value → rapidjson.Value
  | string_value _value => rapidjson.Value.string _value
  | integer_value _value => rapidjson.Value.int64 _value
  | boolean_value _value => rapidjson.Value.bool _value

/-- The function `scalar_value<T>::write(YAML::Emitter&)`: the specialisation
for strings sends `DoubleQuoted` and then the payload, the template for the
other types sends the payload. -/
def write : value → YAML.Emitter → YAML.Emitter
  | string_value _value, emitter => emitter ++ [YAML.item.DoubleQuoted, YAML.item.string _value]
  | integer_value _value, emitter => emitter ++ [YAML.item.int64 _value]
  | boolean_value _value, emitter => emitter ++ [YAML.item.bool _value]

end value

/-- Modelled from the spec: `collection::add(name, value)` (declared in
`facter/facts/collection.hpp`, which is not under src/) inserts or overwrites a
fact. The embedding keeps the calls a resolver makes, in order. -/
abbrev added_facts := List (String × value)

/-- One call `facts.add(name, value)`. -/
def add (facts : added_facts) (name : String) (v : value) : added_facts :=
  facts ++ [(name, v)]

/-! ## `dmi_resolver::resolve_facts` -/

/-- The fact-name constants `fact::...` of `facter/facts/fact.hpp` that the DMI
resolver uses. The header is not under src/, so the names are a parameter of
the embedding. -/
structure fact_names where
  bios_vendor : String
  bios_version : String
  bios_release_date : String
  board_asset_tag : String
  board_manufacturer : String
  board_product_name : String
  board_serial_number : String
  chassis_asset_tag : String
  manufacturer : String
  product_name : String
  serial_number : String
  product_uuid : String
  chassis_type : String

/-- The files the DMI resolver observes. -/
structure sysfs where
  /-- The result of `is_regular_file(filename, ec)`. -/
  is_regular_file : String → Bool
  /-- The content `file::read(filename, value)` stores in `value`; `none` when
  the call returns false. -/
  read : String → Option String

namespace dmi_resolver

/-- The static table `dmi_files` of `resolve_facts`. -/
def dmi_files (fact : fact_names) : List (String × String) :=
  [ (fact.bios_vendor,         "/sys/class/dmi/id/bios_vendor"),
    (fact.bios_version,        "/sys/class/dmi/id/bios_version"),
    (fact.bios_release_date,   "/sys/class/dmi/id/bios_date"),
    (fact.board_asset_tag,     "/sys/class/dmi/id/board_asset_tag"),
    (fact.board_manufacturer,  "/sys/class/dmi/id/board_vendor"),
    (fact.board_product_name,  "/sys/class/dmi/id/board_name"),
    (fact.board_serial_number, "/sys/class/dmi/id/board_serial"),
    (fact.chassis_asset_tag,   "/sys/class/dmi/id/chassis_asset_tag"),
    (fact.manufacturer,        "/sys/class/dmi/id/sys_vendor"),
    (fact.product_name,        "/sys/class/dmi/id/product_name"),
    (fact.serial_number,       "/sys/class/dmi/id/product_serial"),
    (fact.product_uuid,        "/sys/class/dmi/id/product_uuid"),
    (fact.chassis_type,        "/sys/class/dmi/id/chassis_type") ]

/-- The body of the loop of `resolve_facts` for one table entry: `none` when
the body ends with `continue`, otherwise the arguments of `facts.add`. -/
def resolve_file (fact : fact_names) (sys : sysfs) (dmi_file : String × String) :
    Option (String × value) :=
  let fact_name := dmi_file.1
  let filename := dmi_file.2
  if !sys.is_regular_file filename then
    none
  else
    match sys.read filename with
    | none => none
    | some value =>
      let value := trim value
      -- If this is the chassis fact, get the description string
      let value := if fact_name = fact.chassis_type then get_chassis_description value else value
      some (fact_name, facter.value.string_value value)

/-- The loop `for (auto const& dmi_file : dmi_files)` of `resolve_facts`. -/
def resolve_loop (fact : fact_names) (sys : sysfs) :
    List (String × String) → added_facts → added_facts
  | [], facts => facts
  | dmi_file :: rest, facts =>
    match resolve_file fact sys dmi_file with
    | none => resolve_loop fact sys rest facts
    | some (fact_name, v) => resolve_loop fact sys rest (add facts fact_name v)

def resolve_facts (fact : fact_names) (sys : sysfs) (facts : added_facts) : added_facts :=
  resolve_loop fact sys (dmi_files fact) facts

end dmi_resolver

/-! ## `external::powershell_resolver` -/

namespace std

/-- The position of the first occurrence of `c` in a character list. -/
def findAux (c : Char) : List Char → Option Nat
  | [] => none
  | x :: xs => if x = c then some 0 else (findAux c xs).map (· + 1)

/-- The call `str.find(c)` of `std::string`; `none` stands for `npos`. -/
def find (str : String) (c : Char) : Option Nat :=
  findAux c str.data

/-- The call `str.substr(pos, count)` of `std::string`, for `pos` within the
string. -/
def substr (str : String) (pos count : Nat) : String :=
  ⟨(str.data.drop pos).take count⟩

/-- The call `str.substr(pos)` of `std::string`, for `pos` within the
string. -/
def substr_from (str : String) (pos : Nat) : String :=
  ⟨str.data.drop pos⟩

end std

namespace boost

/-- The call `boost::to_lower(str)` in the classic locale: every character is
lower-cased; only `A`..`Z` change. -/
def to_lower (str : String) : String :=
  ⟨str.data.map Char.toLower⟩

/-- The call `boost::iends_with(input, test)` in the classic locale: `test` is
a suffix of `input` when the characters are compared after `toupper`, which
changes only `a`..`z`. -/
def iends_with (input test : String) : Bool :=
  (test.data.map Char.toUpper).isSuffixOf (input.data.map Char.toUpper)

end boost

namespace external

/-- The outcome of `execution::each_line(file, arguments, callback, options)`
run with `throw_on_failure`: the lines passed to the callback and, when the
command cannot be invoked or fails, the message of the `execution_exception`
raised after them. -/
structure execution_result where
  lines : List String
  failure : Option String

/-- The state of the Windows host the PowerShell resolver observes. -/
structure windows where
  /-- The string of the path `p`, the `sysnative` PowerShell under the Windows
  folder. -/
  sysnative_powershell : String
  /-- The result of `which(file)`; empty when the file is not found. -/
  which : String → String
  /-- The outcome of running a command with the given arguments. -/
  each_line : String → List String → execution_result

/-- The exception `external_fact_exception`, with its message. -/
structure external_fact_exception where
  what : String
deriving DecidableEq

/-- The file status the PowerShell resolver asks for: the result of the
throwing overload `is_regular_file(p)`, `none` when the call raises a
`filesystem_error`. -/
structure file_status where
  is_regular_file : String → Option Bool

namespace powershell_resolver

/-- The function `can_resolve`: the `try` block evaluates
`iends_with(file, ".ps1") && is_regular_file(p)`, where `&&` asks for the file
status only when the name matches; the `catch` clause answers false. -/
def can_resolve (fs : file_status) (file : String) : Bool :=
  let attempt : Option Bool :=
    if boost.iends_with file ".ps1" then fs.is_regular_file file else some false
  match attempt with
  | some result => result
  | none => false

/-- The line callback of `resolve`; the state is the captured collection. -/
def callback (facts : added_facts) (line : String) : added_facts × Bool :=
  match std.find line '=' with
  | none => (facts, true)
  | some pos =>
    -- Add as a string fact
    let fact := std.substr line 0 pos
    let fact := boost.to_lower fact
    (add facts fact (value.string_value (std.substr_from line (pos + 1))), true)

/-- The run of the script inside the `try` block of `resolve`: PowerShell is
looked for at the `sysnative` path before the name "powershell" is used. -/
def run_script (sys : windows) (file : String) : execution_result :=
  let pwrshell := sys.which sys.sysnative_powershell
  let pwrshell := if pwrshell = "" then "powershell" else pwrshell
  sys.each_line pwrshell
    ["-NoProfile -NonInteractive -NoLogo -ExecutionPolicy Bypass -File ", "\"" ++ file ++ "\""]

/-- The function `resolve`: the collection after the call and the exception it
raises, if any. The `catch` clause turns an `execution_exception` into an
`external_fact_exception` with the same message. -/
def resolve (sys : windows) (file : String) (facts : added_facts) :
    added_facts × Option external_fact_exception :=
  let result := run_script sys file
  let facts := each_line result.lines callback facts
  match result.failure with
  | some what => (facts, some ⟨what⟩)
  | none => (facts, none)

end powershell_resolver

end external

/-- Reading a document value back as a fact value: a JSON string gives a
string value, a JSON integer an integer value, a JSON boolean a boolean
value. -/
def of_json : rapidjson.Value → Option value
  | rapidjson.Value.null => none
  | rapidjson.Value.string chars => some (value.string_value chars)
  | rapidjson.Value.int64 i => some (value.integer_value i)
  | rapidjson.Value.bool b => some (value.boolean_value b)

/-- A concrete choice of the fact names, each named after its constant. -/
def sample_names : fact_names where
  bios_vendor := "bios_vendor"
  bios_version := "bios_version"
  bios_release_date := "bios_release_date"
  board_asset_tag := "board_asset_tag"
  board_manufacturer := "board_manufacturer"
  board_product_name := "board_product_name"
  board_serial_number := "board_serial_number"
  chassis_asset_tag := "chassis_asset_tag"
  manufacturer := "manufacturer"
  product_name := "product_name"
  serial_number := "serial_number"
  product_uuid := "product_uuid"
  chassis_type := "chassis_type"

/-- A machine on which three DMI files exist; one of them cannot be read. -/
def sample_sysfs : sysfs where
  is_regular_file := fun p =>
    p = "/sys/class/dmi/id/bios_vendor" || p = "/sys/class/dmi/id/product_serial" ||
    p = "/sys/class/dmi/id/chassis_type"
  read := fun p =>
    if p = "/sys/class/dmi/id/bios_vendor" then some "Dell Inc.\n"
    else if p = "/sys/class/dmi/id/chassis_type" then some "9\n"
    else none

/-- The machine `sample_sysfs` without the BIOS vendor file. -/
def sample_sysfs_no_vendor : sysfs where
  is_regular_file := fun p =>
    p = "/sys/class/dmi/id/product_serial" || p = "/sys/class/dmi/id/chassis_type"
  read := fun p =>
    if p = "/sys/class/dmi/id/chassis_type" then some "9\n"
    else none

/-- A Windows host on which the script prints a fact and a warning and
succeeds. -/
def sample_windows : external.windows where
  sysnative_powershell := "C:\\Windows\\sysnative\\WindowsPowerShell\\v1.0\\powershell.exe"
  which := fun _ => ""
  each_line := fun command _ =>
    if command = "powershell" then { lines := ["FOO=bar", "WARNING: no separator"], failure := none }
    else { lines := [], failure := some "command not found" }

/-- A Windows host on which the script prints a fact and then fails. -/
def failing_windows : external.windows where
  sysnative_powershell := "C:\\Windows\\sysnative\\WindowsPowerShell\\v1.0\\powershell.exe"
  which := fun _ => ""
  each_line := fun _ _ =>
    { lines := ["Key=a=b "], failure := some "child process returned non-zero exit status." }

/-! ## Hosts and predicates used to state the properties -/

/-- The host `sys` with the content of one file replaced. -/
def with_file (sys : host) (path : String) (lines : List String) : host :=
  { sys with file_lines := fun p => if p = path then lines else sys.file_lines p }

/-- The host `sys` with the output lines of one command replaced. -/
def with_command (sys : host) (command : String) (lines : List String) : host :=
  { sys with command_lines := fun c => if c = command then lines else sys.command_lines c }

/-- The host `sys` with the output of one executed command replaced. -/
def with_output (sys : host) (command : String) (output : String) : host :=
  { sys with execute := fun c => if c = command then output else sys.execute c }

/-- The root path of a cgroup line, its third colon-separated field, starts
with the given prefix. -/
def root_starts_with (line pre : String) : Bool :=
  match (split line ':')[2]? with
  | some root => starts_with root pre
  | none => false

/-- The line of virt-what's output that is not a diagnostic: the first one that
does not start with "virt-what:". -/
def chosen_line (lines : List String) : Option String :=
  lines.find? (fun line => !starts_with line "virt-what:")

/-- The first non-empty string of a list, the empty string when there is
none. -/
def first_non_empty : List String → String
  | [] => ""
  | c :: cs => if c = "" then first_non_empty cs else c

/-- The results of the eight checks, in the order `get_hypervisor` runs
them. -/
def checks (vm : virtual_machine) (sys : host) (facts : collection) : List String :=
  [ virtualization_resolver.get_cgroup_vm vm sys,
    virtualization_resolver.get_gce_vm vm facts,
    virtualization_resolver.get_what_vm vm sys,
    virtualization_resolver.get_vmware_vm sys,
    virtualization_resolver.get_openvz_vm vm sys,
    virtualization_resolver.get_vserver_vm vm sys,
    virtualization_resolver.get_xen_vm vm sys,
    virtualization_resolver.get_product_name_vm vm facts ]

/-- A cgroup file whose first line is an LXC line and whose second line is a
Docker line. -/
def lxc_then_docker : host :=
  with_file bare_host "/proc/1/cgroup" ["3:cpu:/lxc/a", "2:cpu:/docker/b"]

/-- A VServer host: the context identifier of the process is zero. -/
def vserver_host_status : host :=
  with_file bare_host "/proc/self/status" ["Name:\tinit", "VxID:\t0"]

/-- A VServer guest: the context identifier of the process is not zero. -/
def vserver_guest_status : host :=
  with_file bare_host "/proc/self/status" ["Name:\tinit", "s_context: 49152"]

/-- A host on which the checks after virt-what would all give a result. -/
def xen_hvm_host : host where
  file_lines := fun _ => []
  command_lines := fun c =>
    if c = "virt-what" then ["virt-what: this script must be run as root", "xen-hvm", "kvm"]
    else []
  execute := fun _ => "VMware Workstation 10.0.1"
  is_directory := fun _ => false
  is_regular_file := fun _ => true
  is_empty := fun _ => false

/-- A host whose virt-what reports a VServer and whose status file has a
context identifier. -/
def linux_vserver_host : host where
  file_lines := fun p => if p = "/proc/self/status" then ["Name:\tinit", "VxID:\t7"] else []
  command_lines := fun c => if c = "virt-what" then ["virt-what: warning", "Linux_VServer"] else []
  execute := fun _ => ""
  is_directory := fun _ => false
  is_regular_file := fun _ => false
  is_empty := fun _ => false

/-- A Xen guest: `/proc/xen` is a regular file, the event channel device is
not there. -/
def xen_guest_host : host where
  file_lines := fun _ => []
  command_lines := fun _ => []
  execute := fun _ => ""
  is_directory := fun _ => false
  is_regular_file := fun p => p = "/proc/xen"
  is_empty := fun _ => false

/-- The root path of a cgroup line starts with one of the two container
markers. -/
def cgroup_match (line : String) : Bool :=
  root_starts_with line "/docker/" || root_starts_with line "/lxc/"

/-- A cgroup file with a short line, a line of another kind, an LXC line and a
Docker line. -/
def lxc_cgroup_host : host :=
  with_file bare_host "/proc/1/cgroup"
    ["short:line", "4:memory:/user/1000", "3:cpu:/lxc/a", "2:cpu:/docker/b"]

/-- The chain of `get_hypervisor` without the OpenVZ and the VServer step: the
six checks cgroup, GCE, virt-what, vmware, Xen files and product name, each
run when the checks before it gave the empty string. -/
def six_step_chain (vm : virtual_machine) (sys : host) (facts : collection) : String :=
  let value := virtualization_resolver.get_cgroup_vm vm sys
  let value := if value = "" then virtualization_resolver.get_gce_vm vm facts else value
  let value := if value = "" then virtualization_resolver.get_what_vm vm sys else value
  let value := if value = "" then virtualization_resolver.get_vmware_vm sys else value
  let value := if value = "" then virtualization_resolver.get_xen_vm vm sys else value
  let value := if value = "" then virtualization_resolver.get_product_name_vm vm facts else value
  value

/-- A host whose virt-what reports a VServer, whose status file names a
context and on which vmware answers. -/
def vserver_vmware_host : host where
  file_lines := fun p => if p = "/proc/self/status" then ["VxID:\t7", "envID:\t3"] else []
  command_lines := fun c => if c = "virt-what" then ["linux_vserver"] else []
  execute := fun _ => "VMware Server 2.0"
  is_directory := fun _ => true
  is_regular_file := fun _ => false
  is_empty := fun _ => false

/-- A file system with two regular files, a directory and a path whose status
cannot be read. -/
def sample_files : external.file_status where
  is_regular_file := fun p =>
    if p = "C:\\facts\\A.PS1" || p = "C:\\facts\\a.ps1x" then some true
    else if p = "C:\\locked\\b.ps1" then none
    else some false

/-- A Windows host on which the script prints the same key twice, a line that
begins with the separator and a line without it. -/
def repeated_key_windows : external.windows where
  sysnative_powershell := "C:\\Windows\\sysnative\\WindowsPowerShell\\v1.0\\powershell.exe"
  which := fun file => file
  each_line := fun _ _ =>
    { lines := ["a=1", "A=2", "=x", "no separator"], failure := none }

end facter

open facter facter.util facter.dmi_resolver facter.virtualization_resolver
open facter.value facter.external

/-! ## Lemmas on the helpers -/

theorem lookup_eq_none_of_not_key (key : String) :
    ∀ table : List (String × String), key ∉ table.map Prod.fst → table.lookup key = none := by
  intro table
  induction table with
  | nil => intro _; rfl
  | cons entry rest ih =>
    intro h
    obtain ⟨k, d⟩ := entry
    simp only [List.map_cons, List.mem_cons, not_or] at h
    have hk : (key == k) = false := by simpa using h.1
    simp only [List.lookup, hk]
    exact ih h.2

/-- A callback that never changes its state leaves the state as it was. -/
theorem each_line_const {σ : Type} (callback : σ → String → σ × Bool)
    (hcb : ∀ s line, (callback s line).1 = s) :
    ∀ (lines : List String) (s : σ), each_line lines callback s = s := by
  intro lines
  induction lines with
  | nil => intro s; rfl
  | cons line rest ih =>
    intro s
    have h1 := hcb s line
    unfold each_line
    rcases hc : callback s line with ⟨s', b⟩
    rw [hc] at h1
    simp only at h1
    subst h1
    cases b
    · rfl
    · exact ih s'

theorem vserver_callback_fst (vm : virtual_machine) (outer line : String) :
    (vserver_callback vm outer line).1 = outer := by
  unfold vserver_callback
  simp only
  split_ifs <;> rfl

theorem openvz_callback_fst (vm : virtual_machine) (outer line : String) :
    (openvz_callback vm outer line).1 = outer := by
  unfold openvz_callback
  simp only
  split_ifs <;> rfl

/-- The OpenVZ check gives the empty string on every host. -/
theorem openvz_check_empty (vm : virtual_machine) (sys : host) :
    get_openvz_vm vm sys = "" := by
  unfold get_openvz_vm
  split_ifs <;> rfl

/-- The VServer check gives the empty string on every host. -/
theorem get_vserver_vm_eq_empty (vm : virtual_machine) (sys : host) :
    get_vserver_vm vm sys = "" := by
  unfold get_vserver_vm
  exact each_line_const _ (vserver_callback_fst vm) _ _

theorem get_hypervisor_eq_first_non_empty (vm : virtual_machine) (sys : host)
    (facts : collection) :
    get_hypervisor vm sys facts = first_non_empty (checks vm sys facts) := by
  unfold get_hypervisor checks
  simp only [first_non_empty]
  by_cases h1 : get_cgroup_vm vm sys = "" <;> simp only [h1, if_true, if_false]
  by_cases h2 : get_gce_vm vm facts = "" <;> simp only [h2, if_true, if_false]
  by_cases h3 : get_what_vm vm sys = "" <;> simp only [h3, if_true, if_false]
  by_cases h4 : get_vmware_vm sys = "" <;> simp only [h4, if_true, if_false]
  by_cases h5 : get_openvz_vm vm sys = "" <;> simp only [h5, if_true, if_false]
  by_cases h6 : get_vserver_vm vm sys = "" <;> simp only [h6, if_true, if_false]
  by_cases h7 : get_xen_vm vm sys = "" <;> simp only [h7, if_true, if_false]
  by_cases h8 : get_product_name_vm vm facts = ""
  · simp only [h8, if_true]
  · simp only [h8, if_false]

theorem first_non_empty_eq_empty_iff (cs : List String) :
    first_non_empty cs = "" ↔ ∀ c ∈ cs, c = "" := by
  induction cs with
  | nil => simp [first_non_empty]
  | cons c cs ih =>
    by_cases hc : c = ""
    · simp [first_non_empty, hc, ih]
    · simp [first_non_empty, hc]

theorem first_non_empty_append (pre post : List String) (hpre : ∀ c ∈ pre, c = "") :
    first_non_empty (pre ++ post) = first_non_empty post := by
  induction pre with
  | nil => rfl
  | cons c cs ih =>
    have hc : c = "" := hpre c (List.mem_cons_self _ _)
    simp only [List.cons_append, first_non_empty, hc, if_true]
    exact ih (fun d hd => hpre d (List.mem_cons_of_mem _ hd))

theorem cgroup_callback_eq (vm : virtual_machine) (value line : String) :
    cgroup_callback vm value line =
      if root_starts_with line "/docker/" = true then (vm.docker, false)
      else if root_starts_with line "/lxc/" = true then (vm.lxc, false)
      else (value, true) := by
  unfold cgroup_callback root_starts_with
  by_cases h : (split line ':').length < 3
  · have hnone : (split line ':')[2]? = none := List.getElem?_eq_none (by omega)
    simp [h, hnone]
  · have hsome : (split line ':')[2]? = some ((split line ':')[2]) :=
      List.getElem?_eq_getElem (by omega)
    simp only [h, hsome, dite_false]

/-- The cgroup scan stops with the Docker label at the first Docker line when
no LXC line comes before it. -/
theorem each_line_cgroup_docker (vm : virtual_machine) (line : String) (post : List String)
    (hline : root_starts_with line "/docker/" = true) :
    ∀ (pre : List String) (value : String),
      (∀ l ∈ pre, root_starts_with l "/lxc/" = false) →
      each_line (pre ++ line :: post) (cgroup_callback vm) value = vm.docker := by
  intro pre
  induction pre with
  | nil =>
    intro value _
    simp only [List.nil_append, each_line, cgroup_callback_eq, hline, if_true]
  | cons l rest ih =>
    intro value hpre
    have hl : root_starts_with l "/lxc/" = false := hpre l (List.mem_cons_self _ _)
    have hrest : ∀ m ∈ rest, root_starts_with m "/lxc/" = false :=
      fun m hm => hpre m (List.mem_cons_of_mem _ hm)
    simp only [List.cons_append, each_line, cgroup_callback_eq]
    by_cases hd : root_starts_with l "/docker/" = true
    · simp only [hd, if_true]
    · simp only [hd, hl, if_false, Bool.false_eq_true]
      exact ih value hrest

/-- The virt-what scan keeps the first line that is not a diagnostic. -/
theorem each_line_what (value : String) :
    ∀ lines : List String,
      each_line lines what_callback value = (chosen_line lines).getD value := by
  intro lines
  induction lines with
  | nil => rfl
  | cons line rest ih =>
    unfold chosen_line at ih ⊢
    by_cases hd : starts_with line "virt-what:" = true
    · simp only [each_line, what_callback, hd, if_true, List.find?, Bool.not_true]
      exact ih
    · simp only [Bool.not_eq_true] at hd
      simp [each_line, what_callback, hd, List.find?]

theorem to_lower_ne_empty (value : String) (h : value ≠ "") : to_lower value ≠ "" := by
  obtain ⟨cs⟩ := value
  cases cs with
  | nil => exact absurd rfl h
  | cons c cs =>
    intro hcontra
    have hdata := congrArg String.data hcontra
    simp [to_lower] at hdata

/-- The result of `get_what_vm` as a function of the chosen line. -/
theorem get_what_vm_eq (vm : virtual_machine) (sys : host) :
    get_what_vm vm sys =
      match chosen_line (sys.command_lines "virt-what") with
      | none => ""
      | some line =>
        if line = "" then ""
        else if to_lower line = "linux_vserver" then get_vserver_vm vm sys
        else if to_lower line = "xen-hvm" then vm.xen_hardware
        else if to_lower line = "xen-dom0" then vm.xen_privileged
        else if to_lower line = "xen-domu" then vm.xen_unprivileged
        else if to_lower line = "ibm_systemz" then vm.zlinux
        else to_lower line := by
  unfold get_what_vm
  simp only [each_line_what]
  cases hc : chosen_line (sys.command_lines "virt-what") with
  | none => simp
  | some line =>
    by_cases hl : line = ""
    · simp [hl]
    · simp [hl]

theorem chosen_line_append (line : String) (post : List String)
    (hline : starts_with line "virt-what:" = false) :
    ∀ pre : List String, (∀ d ∈ pre, starts_with d "virt-what:" = true) →
      chosen_line (pre ++ line :: post) = some line := by
  intro pre
  induction pre with
  | nil =>
    intro _
    simp [chosen_line, List.find?, hline]
  | cons d rest ih =>
    intro hpre
    have hd : starts_with d "virt-what:" = true := hpre d (List.mem_cons_self _ _)
    have hrest := ih (fun e he => hpre e (List.mem_cons_of_mem _ he))
    unfold chosen_line at hrest ⊢
    simp only [List.cons_append, List.find?, hd, Bool.not_true]
    exact hrest

theorem chosen_line_eq_none (lines : List String)
    (hall : ∀ d ∈ lines, starts_with d "virt-what:" = true) : chosen_line lines = none := by
  unfold chosen_line
  rw [List.find?_eq_none]
  intro d hd
  simp [hall d hd]

/-- The test `findAux` holds exactly for the contiguous sublists. -/
theorem findAux_iff_substring (needle : List Char) :
    ∀ hay : List Char, findAux needle hay = true ↔ needle <:+: hay := by
  intro hay
  induction hay with
  | nil =>
    simp only [findAux, List.isPrefixOf_iff_prefix, List.prefix_nil, List.infix_nil]
  | cons c cs ih =>
    simp only [findAux, Bool.or_eq_true, List.isPrefixOf_iff_prefix, ih, List.infix_cons_iff]

/-- The test `contains` holds exactly when the needle is a substring. -/
theorem contains_iff_substring (str needle : String) :
    contains str needle = true ↔ needle.data <:+: str.data :=
  findAux_iff_substring needle.data str.data

theorem product_name_loop_no_match (value : String) :
    ∀ table : List (String × String), (∀ e ∈ table, contains value e.1 = false) →
      product_name_loop value table = "" := by
  intro table
  induction table with
  | nil => intro _; rfl
  | cons e rest ih =>
    intro h
    have he : contains value e.1 = false := h e (List.mem_cons_self _ _)
    simp only [product_name_loop, he, Bool.false_eq_true, if_false]
    exact ih (fun d hd => h d (List.mem_cons_of_mem _ hd))

theorem product_name_loop_first_match (value : String) (entry : String × String)
    (post : List (String × String)) (hentry : contains value entry.1 = true) :
    ∀ pre : List (String × String), (∀ e ∈ pre, contains value e.1 = false) →
      product_name_loop value (pre ++ entry :: post) = entry.2 := by
  intro pre
  induction pre with
  | nil =>
    intro _
    simp only [List.nil_append, product_name_loop, hentry, if_true]
  | cons e rest ih =>
    intro h
    have he : contains value e.1 = false := h e (List.mem_cons_self _ _)
    simp only [List.cons_append, product_name_loop, he, Bool.false_eq_true, if_false]
    exact ih (fun d hd => h d (List.mem_cons_of_mem _ hd))

/-- Reading a run of characters that are not whitespace extends the token. -/
theorem tokensAux_token (rest : List Char) :
    ∀ (t cur : List Char), (∀ c ∈ t, isspace c = false) →
      tokensAux (t ++ rest) cur = tokensAux rest (t.reverse ++ cur) := by
  intro t
  induction t with
  | nil => intro cur _; rfl
  | cons c cs ih =>
    intro cur h
    have hc : isspace c = false := h c (List.mem_cons_self _ _)
    rw [List.cons_append]
    simp only [tokensAux, hc, Bool.false_eq_true, if_false]
    rw [ih (c :: cur) (fun d hd => h d (List.mem_cons_of_mem _ hd))]
    simp

/-- Whitespace between tokens is skipped. -/
theorem tokensAux_space (rest : List Char) :
    ∀ ws : List Char, (∀ c ∈ ws, isspace c = true) →
      tokensAux (ws ++ rest) [] = tokensAux rest [] := by
  intro ws
  induction ws with
  | nil => intro _; rfl
  | cons c cs ih =>
    intro h
    have hc : isspace c = true := h c (List.mem_cons_self _ _)
    rw [List.cons_append]
    simp only [tokensAux, hc, if_true]
    exact ih (fun d hd => h d (List.mem_cons_of_mem _ hd))

/-- A token followed by whitespace, or by the end of the string, is emitted. -/
theorem tokensAux_emit (t : List Char) (ht : t ≠ []) (hts : ∀ c ∈ t, isspace c = false)
    (tail : List Char) (htail : tail = [] ∨ ∃ w tl, tail = w :: tl ∧ isspace w = true) :
    ∃ more : List String, tokensAux (t ++ tail) [] = ⟨t⟩ :: more := by
  rw [tokensAux_token tail t [] hts, List.append_nil]
  have hrev : t.reverse ≠ [] := by simpa using ht
  rcases htail with h | ⟨w, tl, h, hw⟩
  · subst h
    exact ⟨[], by simp [tokensAux, hrev]⟩
  · subst h
    exact ⟨tokensAux tl [], by simp [tokensAux, hw, hrev]⟩

/-- The first two tokens of a string that starts, after optional whitespace,
with two runs of non-whitespace characters separated by whitespace. -/
theorem split_whitespace_two (ws0 t1 ws1 t2 tail : List Char)
    (hws0 : ∀ c ∈ ws0, isspace c = true)
    (ht1 : t1 ≠ []) (hts1 : ∀ c ∈ t1, isspace c = false)
    (hws1 : ws1 ≠ []) (hwss1 : ∀ c ∈ ws1, isspace c = true)
    (ht2 : t2 ≠ []) (hts2 : ∀ c ∈ t2, isspace c = false)
    (htail : tail = [] ∨ ∃ w tl, tail = w :: tl ∧ isspace w = true) :
    ∃ more : List String,
      split_whitespace ⟨ws0 ++ t1 ++ ws1 ++ t2 ++ tail⟩ = ⟨t1⟩ :: ⟨t2⟩ :: more := by
  unfold split_whitespace
  simp only [List.append_assoc]
  rw [tokensAux_space _ ws0 hws0, tokensAux_token _ t1 [] hts1, List.append_nil]
  have hrev : t1.reverse ≠ [] := by simpa using ht1
  cases ws1 with
  | nil => exact absurd rfl hws1
  | cons w ws =>
    have hw : isspace w = true := hwss1 w (List.mem_cons_self _ _)
    rw [List.cons_append]
    simp only [tokensAux, hw, hrev, if_true, if_false, List.reverse_reverse]
    rw [tokensAux_space _ ws (fun d hd => hwss1 d (List.mem_cons_of_mem _ hd))]
    obtain ⟨more, hmore⟩ := tokensAux_emit t2 ht2 hts2 tail htail
    exact ⟨more, by rw [hmore]⟩

/-- A string with at most one run of non-whitespace characters has at most one
token. -/
theorem split_whitespace_one (ws0 t1 ws1 : List Char)
    (hws0 : ∀ c ∈ ws0, isspace c = true)
    (hts1 : ∀ c ∈ t1, isspace c = false)
    (hwss1 : ∀ c ∈ ws1, isspace c = true) :
    (split_whitespace ⟨ws0 ++ t1 ++ ws1⟩).length < 2 := by
  unfold split_whitespace
  simp only [List.append_assoc]
  rw [tokensAux_space _ ws0 hws0, tokensAux_token _ t1 [] hts1, List.append_nil]
  cases ws1 with
  | nil =>
    simp only [tokensAux]
    split_ifs <;> simp
  | cons w ws =>
    have hw : isspace w = true := hwss1 w (List.mem_cons_self _ _)
    have hnil : tokensAux ws [] = [] := by
      have h := tokensAux_space [] ws (fun d hd => hwss1 d (List.mem_cons_of_mem _ hd))
      simpa [tokensAux] using h
    simp only [tokensAux, hw, if_true, hnil]
    split_ifs <;> simp

/-! ## Properties -/

/-- C1: `get_chassis_description` is a total function on strings; it gives
"Laptop" for the code "9", "Unknown" for the code "97", and "Unknown" for every
code that is not a key of its table. -/
theorem get_chassis_description_total :
    get_chassis_description "9" = "Laptop" ∧
    get_chassis_description "97" = "Unknown" ∧
    ∀ type : String, type ∉ descriptions.map Prod.fst →
      get_chassis_description type = "Unknown" := by
  refine ⟨by decide, by decide, ?_⟩
  intro type h
  unfold get_chassis_description
  rw [lookup_eq_none_of_not_key type descriptions h]

theorem get_chassis_description_total_witness :
    "97" ∉ descriptions.map Prod.fst ∧ get_chassis_description "97" = "Unknown" :=
  ⟨by decide, get_chassis_description_total.2.2 "97" (by decide)⟩

/-- C2, as stated, fails: a cgroup file that has a Docker line after an LXC
line gives the LXC label, not the Docker label. -/
theorem docker_line_after_lxc_line :
    "2:cpu:/docker/b" ∈ lxc_then_docker.file_lines "/proc/1/cgroup" ∧
    root_starts_with "2:cpu:/docker/b" "/docker/" = true ∧
    get_hypervisor sample_labels lxc_then_docker no_facts = sample_labels.lxc ∧
    get_hypervisor sample_labels lxc_then_docker no_facts ≠ sample_labels.docker := by
  decide

/-- C2, amended: when `/proc/1/cgroup` has a line whose root path starts with
"/docker/" and no earlier line has a root path starting with "/lxc/", then
`get_hypervisor` returns the Docker label, whatever the other data sources
hold. The label constant is taken to be a non-empty string. -/
theorem get_hypervisor_docker (vm : virtual_machine) (sys : host) (facts : collection)
    (pre : List String) (line : String) (post : List String)
    (hlines : sys.file_lines "/proc/1/cgroup" = pre ++ line :: post)
    (hline : root_starts_with line "/docker/" = true)
    (hpre : ∀ l ∈ pre, root_starts_with l "/lxc/" = false)
    (hlabel : vm.docker ≠ "") :
    get_hypervisor vm sys facts = vm.docker := by
  have hcgroup : get_cgroup_vm vm sys = vm.docker := by
    unfold get_cgroup_vm
    rw [hlines]
    exact each_line_cgroup_docker vm line post hline pre "" hpre
  rw [get_hypervisor_eq_first_non_empty]
  simp only [checks, first_non_empty, hcgroup, hlabel, if_false]

theorem get_hypervisor_docker_witness :
    get_hypervisor sample_labels
      (with_file bare_host "/proc/1/cgroup" ["bad line", "2:cpu:/docker/b", "3:cpu:/lxc/a"])
      { bios_vendor := some "Google", product_name := some "KVM" } = "docker" :=
  get_hypervisor_docker sample_labels
    (with_file bare_host "/proc/1/cgroup" ["bad line", "2:cpu:/docker/b", "3:cpu:/lxc/a"])
    { bios_vendor := some "Google", product_name := some "KVM" }
    ["bad line"] "2:cpu:/docker/b" ["3:cpu:/lxc/a"] (by decide) (by decide) (by decide)
    (by decide)

/-- C3: when the cgroup check yields nothing, the BIOS vendor fact is absent or
does not contain "Google", and the first line of virt-what's output that is not
a diagnostic is "xen-hvm", `get_hypervisor` returns the label
`vm::xen_hardware`, whatever the later checks would give; the result is not the
raw string "xen-hvm" when the label differs from it. The label constant is
taken to be a non-empty string. -/
theorem get_hypervisor_xen_hvm (vm : virtual_machine) (sys : host) (facts : collection)
    (hcgroup : get_cgroup_vm vm sys = "")
    (hvendor : ∀ vendor, facts.bios_vendor = some vendor → contains vendor "Google" = false)
    (hwhat : chosen_line (sys.command_lines "virt-what") = some "xen-hvm")
    (hlabel : vm.xen_hardware ≠ "") :
    get_hypervisor vm sys facts = vm.xen_hardware ∧
    (vm.xen_hardware ≠ "xen-hvm" → get_hypervisor vm sys facts ≠ "xen-hvm") := by
  have hgce : get_gce_vm vm facts = "" := by
    unfold get_gce_vm
    cases hv : facts.bios_vendor with
    | none => rfl
    | some vendor => simp [hvendor vendor hv]
  have hw : get_what_vm vm sys = vm.xen_hardware := by
    rw [get_what_vm_eq, hwhat]
    have h1 : to_lower "xen-hvm" = "xen-hvm" := by decide
    have h2 : ("xen-hvm" : String) ≠ "" := by decide
    have h3 : ("xen-hvm" : String) ≠ "linux_vserver" := by decide
    simp only [h1, h2, h3, if_false, if_true]
  have hres : get_hypervisor vm sys facts = vm.xen_hardware := by
    rw [get_hypervisor_eq_first_non_empty]
    simp only [checks, first_non_empty, hcgroup, hgce, hw, hlabel, if_true, if_false]
  exact ⟨hres, fun hne => by rw [hres]; exact hne⟩

theorem get_hypervisor_xen_hvm_witness :
    get_hypervisor sample_labels xen_hvm_host
        { bios_vendor := some "Xen", product_name := some "VirtualBox" } = "xen_hardware" ∧
    get_vmware_vm xen_hvm_host = "vmware_workstation" ∧
    get_xen_vm sample_labels xen_hvm_host = "xen_privileged" :=
  ⟨(get_hypervisor_xen_hvm sample_labels xen_hvm_host
      { bios_vendor := some "Xen", product_name := some "VirtualBox" }
      (by decide) (by decide) (by decide) (by decide)).1, by decide, by decide⟩

/-- C4: `get_hypervisor` returns the result of the first check, in the order
cgroup, GCE, virt-what, vmware, OpenVZ, VServer, Xen files, product name, that
is a non-empty string: a check's non-empty result is returned when every
earlier check gave the empty string, and the result is the empty string exactly
when every check gives the empty string. -/
theorem get_hypervisor_first_check (vm : virtual_machine) (sys : host) (facts : collection) :
    get_hypervisor vm sys facts = first_non_empty (checks vm sys facts) ∧
    (∀ (pre : List String) (c : String) (post : List String),
      checks vm sys facts = pre ++ c :: post → (∀ e ∈ pre, e = "") → c ≠ "" →
      get_hypervisor vm sys facts = c) ∧
    (get_hypervisor vm sys facts = "" ↔ ∀ c ∈ checks vm sys facts, c = "") := by
  refine ⟨get_hypervisor_eq_first_non_empty vm sys facts, ?_, ?_⟩
  · intro pre c post hsplit hpre hc
    rw [get_hypervisor_eq_first_non_empty, hsplit, first_non_empty_append pre _ hpre]
    simp only [first_non_empty, hc, if_false]
  · rw [get_hypervisor_eq_first_non_empty]
    exact first_non_empty_eq_empty_iff _

theorem get_hypervisor_first_check_witness :
    checks sample_labels xen_hvm_host { bios_vendor := some "Google", product_name := none }
      = [""] ++ "gce" :: ["xen_hardware", "vmware_workstation", "", "", "xen_privileged", ""] ∧
    get_hypervisor sample_labels xen_hvm_host
      { bios_vendor := some "Google", product_name := none } = "gce" :=
  ⟨by decide,
   (get_hypervisor_first_check sample_labels xen_hvm_host
      { bios_vendor := some "Google", product_name := none }).2.1
      [""] "gce" ["xen_hardware", "vmware_workstation", "", "", "xen_privileged", ""]
      (by decide) (by decide) (by decide)⟩

/-- C5: on the status file of a VServer host (a line with key "VxID" and value
"0") and on that of a VServer guest (key "s_context", value not "0") the
function `get_vserver_vm` returns the empty string, not a VServer label: the
label is assigned to the variable `value` of the callback, not to the captured
one. -/
theorem get_vserver_vm_label_lost (vm : virtual_machine) :
    (split "VxID:\t0" ':').map trim = ["VxID", "0"] ∧
    get_vserver_vm vm vserver_host_status = "" ∧
    (split "s_context: 49152" ':').map trim = ["s_context", "49152"] ∧
    get_vserver_vm vm vserver_guest_status = "" :=
  ⟨by decide, get_vserver_vm_eq_empty vm _, by decide, get_vserver_vm_eq_empty vm _⟩

/-- C6: `get_openvz_vm` returns the empty string on every host and for every
content of `/proc/self/status`: the value computed in the line callback is
discarded. -/
theorem get_openvz_vm_eq_empty (vm : virtual_machine) (sys : host) :
    get_openvz_vm vm sys = "" :=
  openvz_check_empty vm sys

/-- C7: the result of `get_what_vm` is based on the first line of virt-what's
output that does not start with "virt-what:": the diagnostic lines before it
and all the lines after it do not change the result, and the result is the
empty string when the output has no lines or only diagnostic lines. -/
theorem get_what_vm_chosen_line (vm : virtual_machine) (sys : host) :
    (∀ (pre : List String) (line : String) (post : List String),
      sys.command_lines "virt-what" = pre ++ line :: post →
      (∀ d ∈ pre, starts_with d "virt-what:" = true) →
      starts_with line "virt-what:" = false →
      get_what_vm vm sys = get_what_vm vm (with_command sys "virt-what" [line])) ∧
    ((∀ d ∈ sys.command_lines "virt-what", starts_with d "virt-what:" = true) →
      get_what_vm vm sys = "") := by
  constructor
  · intro pre line post hlines hpre hline
    have h1 : chosen_line (sys.command_lines "virt-what") = some line := by
      rw [hlines]
      exact chosen_line_append line post hline pre hpre
    have h2 : chosen_line ((with_command sys "virt-what" [line]).command_lines "virt-what")
        = some line := by
      have hcmd : (with_command sys "virt-what" [line]).command_lines "virt-what" = [line] := by
        simp [with_command]
      rw [hcmd]
      exact chosen_line_append line [] hline [] (fun _ h => absurd h (List.not_mem_nil _))
    have h3 : get_vserver_vm vm (with_command sys "virt-what" [line]) = get_vserver_vm vm sys :=
      rfl
    rw [get_what_vm_eq vm sys, get_what_vm_eq vm (with_command sys "virt-what" [line]), h1, h2, h3]
  · intro hall
    rw [get_what_vm_eq, chosen_line_eq_none _ hall]

theorem get_what_vm_chosen_line_witness :
    get_what_vm sample_labels xen_hvm_host = "xen_hardware" ∧
    get_what_vm sample_labels xen_hvm_host =
      get_what_vm sample_labels (with_command xen_hvm_host "virt-what" ["xen-hvm"]) ∧
    get_what_vm sample_labels
      (with_command bare_host "virt-what" ["virt-what: no result", "virt-what: done"]) = "" :=
  ⟨by decide,
   (get_what_vm_chosen_line sample_labels xen_hvm_host).1
      ["virt-what: this script must be run as root"] "xen-hvm" ["kvm"]
      (by decide) (by decide) (by decide),
   (get_what_vm_chosen_line sample_labels
      (with_command bare_host "virt-what" ["virt-what: no result", "virt-what: done"])).2
      (by decide)⟩

/-- C8: when the chosen line of virt-what's output, lower-cased, is
"linux_vserver", `get_what_vm` returns the result of `get_vserver_vm` on the
same host, and that result is not the string "linux_vserver". -/
theorem get_what_vm_linux_vserver (vm : virtual_machine) (sys : host) (line : String)
    (hchosen : chosen_line (sys.command_lines "virt-what") = some line)
    (hlower : to_lower line = "linux_vserver") :
    get_what_vm vm sys = get_vserver_vm vm sys ∧ get_what_vm vm sys ≠ "linux_vserver" := by
  have hne : line ≠ "" := by
    intro h
    rw [h] at hlower
    exact absurd hlower (by decide)
  have hres : get_what_vm vm sys = get_vserver_vm vm sys := by
    rw [get_what_vm_eq, hchosen]
    simp only [hne, hlower, if_false, if_true]
  refine ⟨hres, ?_⟩
  rw [hres, get_vserver_vm_eq_empty]
  decide

theorem get_what_vm_linux_vserver_witness :
    chosen_line (linux_vserver_host.command_lines "virt-what") = some "Linux_VServer" ∧
    get_what_vm sample_labels linux_vserver_host
      = get_vserver_vm sample_labels linux_vserver_host ∧
    get_what_vm sample_labels linux_vserver_host ≠ "linux_vserver" :=
  ⟨by decide,
   get_what_vm_linux_vserver sample_labels linux_vserver_host "Linux_VServer"
     (by decide) (by decide)⟩

/-- C9: `get_product_name_vm` returns the label of the first entry of the
table, in the order VMware, VirtualBox, Parallels, KVM, Virtual Machine, RHEV
Hypervisor, oVirt Node, HVM domU, whose product string occurs in the
product-name fact: an entry that matches wins when no entry before it matches
(so a name with "KVM" in it and none of the three earlier strings gives the KVM
label, also when "Virtual Machine" occurs in it), and the result is the empty
string when the fact is absent or no entry matches. -/
theorem get_product_name_vm_first_match (vm : virtual_machine) (facts : collection) :
    vms vm =
      [ ("VMware", vm.vmware), ("VirtualBox", vm.virtualbox), ("Parallels", vm.parallels),
        ("KVM", vm.kvm), ("Virtual Machine", vm.hyperv), ("RHEV Hypervisor", vm.redhat_ev),
        ("oVirt Node", vm.ovirt), ("HVM domU", vm.xen_hardware) ] ∧
    (facts.product_name = none → get_product_name_vm vm facts = "") ∧
    (∀ (name : String) (pre : List (String × String)) (entry : String × String)
        (post : List (String × String)),
      facts.product_name = some name → vms vm = pre ++ entry :: post →
      (∀ e ∈ pre, contains name e.1 = false) → contains name entry.1 = true →
      get_product_name_vm vm facts = entry.2) ∧
    (∀ name : String, facts.product_name = some name →
      (∀ e ∈ vms vm, contains name e.1 = false) → get_product_name_vm vm facts = "") ∧
    (∀ name : String, facts.product_name = some name →
      contains name "VMware" = false → contains name "VirtualBox" = false →
      contains name "Parallels" = false → contains name "KVM" = true →
      get_product_name_vm vm facts = vm.kvm) := by
  refine ⟨rfl, ?_, ?_, ?_, ?_⟩
  · intro hnone
    simp only [get_product_name_vm, hnone]
  · intro name pre entry post hname htable hpre hentry
    simp only [get_product_name_vm, hname, htable]
    exact product_name_loop_first_match name entry post hentry pre hpre
  · intro name hname hall
    simp only [get_product_name_vm, hname]
    exact product_name_loop_no_match name _ hall
  · intro name hname h1 h2 h3 h4
    simp only [get_product_name_vm, hname, vms, product_name_loop, h1, h2, h3, h4,
      Bool.false_eq_true, if_false, if_true]

theorem get_product_name_vm_first_match_witness :
    contains "KVM Virtual Machine" "Virtual Machine" = true ∧
    get_product_name_vm sample_labels
      { bios_vendor := none, product_name := some "KVM Virtual Machine" } = "kvm" ∧
    get_product_name_vm sample_labels
      { bios_vendor := none, product_name := some "Virtual Machine" } = "hyperv" ∧
    get_product_name_vm sample_labels
      { bios_vendor := none, product_name := some "OptiPlex 7010" } = "" ∧
    get_product_name_vm sample_labels { bios_vendor := none, product_name := none } = "" :=
  ⟨by decide,
   (get_product_name_vm_first_match sample_labels
      { bios_vendor := none, product_name := some "KVM Virtual Machine" }).2.2.2.2
      "KVM Virtual Machine" rfl (by decide) (by decide) (by decide) (by decide),
   (get_product_name_vm_first_match sample_labels
      { bios_vendor := none, product_name := some "Virtual Machine" }).2.2.1
      "Virtual Machine"
      [("VMware", "vmware"), ("VirtualBox", "virtualbox"), ("Parallels", "parallels"),
        ("KVM", "kvm")]
      ("Virtual Machine", "hyperv")
      [("RHEV Hypervisor", "redhat_ev"), ("oVirt Node", "ovirt"), ("HVM domU", "xen_hardware")]
      rfl (by decide) (by decide) (by decide),
   (get_product_name_vm_first_match sample_labels
      { bios_vendor := none, product_name := some "OptiPlex 7010" }).2.2.2.1
      "OptiPlex 7010" rfl (by decide),
   (get_product_name_vm_first_match sample_labels
      { bios_vendor := none, product_name := none }).2.1 rfl⟩

/-- C10: `get_vmware_vm` splits the output of "vmware -v" into
whitespace-separated tokens; with at least two tokens it returns the
lower-cased string token1 + "_" + token2 and ignores every further token, with
fewer than two tokens, as for an empty output, it returns the empty string.
The last two parts say the same on the characters of the output: optional
whitespace, a first run of non-whitespace characters, whitespace, a second run,
and then nothing or whitespace and anything. -/
theorem get_vmware_vm_tokens (sys : host) :
    (∀ (token1 token2 : String) (further : List String),
      split_whitespace (sys.execute "vmware -v") = token1 :: token2 :: further →
      get_vmware_vm sys = to_lower (token1 ++ "_" ++ token2)) ∧
    ((split_whitespace (sys.execute "vmware -v")).length < 2 → get_vmware_vm sys = "") ∧
    (sys.execute "vmware -v" = "" → get_vmware_vm sys = "") ∧
    (∀ ws0 t1 ws1 t2 tail : List Char,
      sys.execute "vmware -v" = ⟨ws0 ++ t1 ++ ws1 ++ t2 ++ tail⟩ →
      (∀ c ∈ ws0, isspace c = true) →
      t1 ≠ [] → (∀ c ∈ t1, isspace c = false) →
      ws1 ≠ [] → (∀ c ∈ ws1, isspace c = true) →
      t2 ≠ [] → (∀ c ∈ t2, isspace c = false) →
      (tail = [] ∨ ∃ w tl, tail = w :: tl ∧ isspace w = true) →
      get_vmware_vm sys = to_lower (⟨t1⟩ ++ "_" ++ ⟨t2⟩)) ∧
    (∀ ws0 t1 ws1 : List Char,
      sys.execute "vmware -v" = ⟨ws0 ++ t1 ++ ws1⟩ →
      (∀ c ∈ ws0, isspace c = true) → (∀ c ∈ t1, isspace c = false) →
      (∀ c ∈ ws1, isspace c = true) →
      get_vmware_vm sys = "") := by
  have key : ∀ (token1 token2 : String) (further : List String),
      split_whitespace (sys.execute "vmware -v") = token1 :: token2 :: further →
      get_vmware_vm sys = to_lower (token1 ++ "_" ++ token2) := by
    intro token1 token2 further h
    unfold get_vmware_vm
    simp [h]
  have few : (split_whitespace (sys.execute "vmware -v")).length < 2 →
      get_vmware_vm sys = "" := by
    intro h
    unfold get_vmware_vm
    simp [h]
  refine ⟨key, few, ?_, ?_, ?_⟩
  · intro h
    apply few
    rw [h]
    decide
  · intro ws0 t1 ws1 t2 tail hout hws0 ht1 hts1 hws1 hwss1 ht2 hts2 htail
    obtain ⟨more, hmore⟩ :=
      split_whitespace_two ws0 t1 ws1 t2 tail hws0 ht1 hts1 hws1 hwss1 ht2 hts2 htail
    rw [← hout] at hmore
    exact key _ _ _ hmore
  · intro ws0 t1 ws1 hout hws0 hts1 hwss1
    apply few
    rw [hout]
    exact split_whitespace_one ws0 t1 ws1 hws0 hts1 hwss1

theorem get_vmware_vm_tokens_witness :
    get_vmware_vm (with_output bare_host "vmware -v" "VMware Workstation 10.0.1 build-1379776")
      = "vmware_workstation" ∧
    get_vmware_vm (with_output bare_host "vmware -v" " VMware\tServer\n") = "vmware_server" ∧
    get_vmware_vm (with_output bare_host "vmware -v" "VMware\n") = "" ∧
    get_vmware_vm bare_host = "" :=
  ⟨(get_vmware_vm_tokens
      (with_output bare_host "vmware -v" "VMware Workstation 10.0.1 build-1379776")).1
      "VMware" "Workstation" ["10.0.1", "build-1379776"] (by decide),
   (get_vmware_vm_tokens (with_output bare_host "vmware -v" " VMware\tServer\n")).2.2.2.1
      [' '] "VMware".data ['\t'] "Server".data ['\n'] rfl
      (by decide) (by decide) (by decide) (by decide) (by decide) (by decide) (by decide)
      (Or.inr ⟨'\n', [], rfl, by decide⟩),
   (get_vmware_vm_tokens (with_output bare_host "vmware -v" "VMware\n")).2.2.2.2
      [] "VMware".data ['\n'] rfl (by decide) (by decide) (by decide),
   (get_vmware_vm_tokens bare_host).2.2.1 rfl⟩

/-! ## The Xen, GCE and cgroup checks, and the chain on a bare host -/

/-- The branches of `get_xen_vm` as one expression over the four path tests. -/
theorem get_xen_vm_eq (vm : virtual_machine) (sys : host) :
    get_xen_vm vm sys =
      if ((sys.is_regular_file "/proc/sys/xen" || sys.is_regular_file "/sys/bus/xen" ||
            sys.is_regular_file "/proc/xen") && sys.is_regular_file "/dev/xen/evtchn") = true
      then vm.xen_privileged
      else if (sys.is_regular_file "/proc/xen" && !sys.is_regular_file "/dev/xen/evtchn") = true
      then vm.xen_unprivileged
      else "" := by
  unfold get_xen_vm
  generalize sys.is_regular_file "/proc/sys/xen" = a
  generalize sys.is_regular_file "/sys/bus/xen" = b
  generalize sys.is_regular_file "/proc/xen" = c
  generalize sys.is_regular_file "/dev/xen/evtchn" = d
  cases a <;> cases b <;> cases c <;> cases d <;> simp

/-- C11: `get_xen_vm` is decided by whether four paths are regular files. It
returns the privileged label when one of `/proc/sys/xen`, `/sys/bus/xen`,
`/proc/xen` is a regular file and `/dev/xen/evtchn` is one, the unprivileged
label when `/proc/xen` is a regular file and `/dev/xen/evtchn` is not, and the
empty string in every other case; two hosts that agree on the four paths get
the same result. With the two labels non-empty and different, each result
occurs only in its case. -/
theorem get_xen_vm_paths (vm : virtual_machine) (sys : host) :
    (get_xen_vm vm sys =
      if ((sys.is_regular_file "/proc/sys/xen" || sys.is_regular_file "/sys/bus/xen" ||
            sys.is_regular_file "/proc/xen") && sys.is_regular_file "/dev/xen/evtchn") = true
      then vm.xen_privileged
      else if (sys.is_regular_file "/proc/xen" && !sys.is_regular_file "/dev/xen/evtchn") = true
      then vm.xen_unprivileged
      else "") ∧
    (∀ other : host,
      other.is_regular_file "/proc/sys/xen" = sys.is_regular_file "/proc/sys/xen" →
      other.is_regular_file "/sys/bus/xen" = sys.is_regular_file "/sys/bus/xen" →
      other.is_regular_file "/proc/xen" = sys.is_regular_file "/proc/xen" →
      other.is_regular_file "/dev/xen/evtchn" = sys.is_regular_file "/dev/xen/evtchn" →
      get_xen_vm vm other = get_xen_vm vm sys) ∧
    (vm.xen_privileged ≠ "" → vm.xen_unprivileged ≠ "" →
      vm.xen_privileged ≠ vm.xen_unprivileged →
      (get_xen_vm vm sys = vm.xen_privileged ↔
        (sys.is_regular_file "/proc/sys/xen" = true ∨ sys.is_regular_file "/sys/bus/xen" = true ∨
          sys.is_regular_file "/proc/xen" = true) ∧
        sys.is_regular_file "/dev/xen/evtchn" = true) ∧
      (get_xen_vm vm sys = vm.xen_unprivileged ↔
        sys.is_regular_file "/proc/xen" = true ∧
        sys.is_regular_file "/dev/xen/evtchn" = false) ∧
      (get_xen_vm vm sys = "" ↔
        ¬ ((sys.is_regular_file "/proc/sys/xen" = true ∨
              sys.is_regular_file "/sys/bus/xen" = true ∨
              sys.is_regular_file "/proc/xen" = true) ∧
            sys.is_regular_file "/dev/xen/evtchn" = true) ∧
        ¬ (sys.is_regular_file "/proc/xen" = true ∧
            sys.is_regular_file "/dev/xen/evtchn" = false))) := by
  refine ⟨get_xen_vm_eq vm sys, ?_, ?_⟩
  · intro other h1 h2 h3 h4
    rw [get_xen_vm_eq vm other, get_xen_vm_eq vm sys, h1, h2, h3, h4]
  · intro hp hu hpu
    have hup : vm.xen_unprivileged ≠ vm.xen_privileged := fun h => hpu h.symm
    have hp' : ("" : String) ≠ vm.xen_privileged := fun h => hp h.symm
    have hu' : ("" : String) ≠ vm.xen_unprivileged := fun h => hu h.symm
    rw [get_xen_vm_eq vm sys]
    generalize sys.is_regular_file "/proc/sys/xen" = a
    generalize sys.is_regular_file "/sys/bus/xen" = b
    generalize sys.is_regular_file "/proc/xen" = c
    generalize sys.is_regular_file "/dev/xen/evtchn" = d
    cases a <;> cases b <;> cases c <;> cases d <;> simp [hp, hu, hpu, hup, hp', hu']

theorem get_xen_vm_paths_witness :
    get_xen_vm sample_labels xen_guest_host = "xen_unprivileged" ∧
    (get_xen_vm sample_labels xen_guest_host = sample_labels.xen_privileged ↔
      (xen_guest_host.is_regular_file "/proc/sys/xen" = true ∨
        xen_guest_host.is_regular_file "/sys/bus/xen" = true ∨
        xen_guest_host.is_regular_file "/proc/xen" = true) ∧
      xen_guest_host.is_regular_file "/dev/xen/evtchn" = true) :=
  ⟨by decide,
   ((get_xen_vm_paths sample_labels xen_guest_host).2.2
      (by decide) (by decide) (by decide)).1⟩

/-- C12: when every data source is unavailable (no cgroup lines, no BIOS vendor
fact, no output of virt-what and of vmware, no status lines, none of the Xen
and OpenVZ paths, no product-name fact), each of the eight checks gives the
empty string and `get_hypervisor`, a total function, returns the empty
string. Of the paths, the absence of `/proc/vz` and of the three Xen files
`/proc/sys/xen`, `/sys/bus/xen`, `/proc/xen` is all that is used. -/
theorem get_hypervisor_nothing_available (vm : virtual_machine) (sys : host)
    (facts : collection)
    (hcgroup : sys.file_lines "/proc/1/cgroup" = [])
    (hvendor : facts.bios_vendor = none)
    (hwhat : sys.command_lines "virt-what" = [])
    (hvmware : sys.execute "vmware -v" = "")
    (hstatus : sys.file_lines "/proc/self/status" = [])
    (hvz : sys.is_directory "/proc/vz" = false)
    (hsysxen : sys.is_regular_file "/proc/sys/xen" = false)
    (hbusxen : sys.is_regular_file "/sys/bus/xen" = false)
    (hprocxen : sys.is_regular_file "/proc/xen" = false)
    (hproduct : facts.product_name = none) :
    get_cgroup_vm vm sys = "" ∧ get_gce_vm vm facts = "" ∧ get_what_vm vm sys = "" ∧
    get_vmware_vm sys = "" ∧ get_openvz_vm vm sys = "" ∧ get_vserver_vm vm sys = "" ∧
    get_xen_vm vm sys = "" ∧ get_product_name_vm vm facts = "" ∧
    get_hypervisor vm sys facts = "" := by
  have h1 : get_cgroup_vm vm sys = "" := by
    unfold get_cgroup_vm
    rw [hcgroup]
    rfl
  have h2 : get_gce_vm vm facts = "" := by
    unfold get_gce_vm
    rw [hvendor]
  have h3 : get_what_vm vm sys = "" := by
    rw [get_what_vm_eq, hwhat]
    rfl
  have h4 : get_vmware_vm sys = "" := by
    have hfew : (split_whitespace (sys.execute "vmware -v")).length < 2 := by
      rw [hvmware]
      decide
    unfold get_vmware_vm
    simp [hfew]
  have h5 : get_openvz_vm vm sys = "" := by
    unfold get_openvz_vm
    simp [hvz]
  have h6 : get_vserver_vm vm sys = "" := by
    unfold get_vserver_vm
    rw [hstatus]
    rfl
  have h7 : get_xen_vm vm sys = "" := by
    unfold get_xen_vm
    simp [hsysxen, hbusxen, hprocxen]
  have h8 : get_product_name_vm vm facts = "" := by
    unfold get_product_name_vm
    rw [hproduct]
  refine ⟨h1, h2, h3, h4, h5, h6, h7, h8, ?_⟩
  rw [get_hypervisor_eq_first_non_empty]
  simp only [checks, h1, h2, h3, h4, h5, h6, h7, h8, first_non_empty, if_true]

theorem get_hypervisor_nothing_available_witness :
    get_hypervisor sample_labels bare_host no_facts = "" :=
  (get_hypervisor_nothing_available sample_labels bare_host no_facts
    rfl rfl rfl rfl rfl rfl rfl rfl rfl rfl).2.2.2.2.2.2.2.2

/-- C13: `get_gce_vm` returns the GCE label when the BIOS vendor fact is
present and "Google" is a substring of it, and the empty string when the fact
is absent or "Google" does not occur in it; with a non-empty label the result
is the GCE label exactly in the first case. -/
theorem get_gce_vm_google (vm : virtual_machine) (facts : collection) :
    (facts.bios_vendor = none → get_gce_vm vm facts = "") ∧
    (∀ vendor : String, facts.bios_vendor = some vendor →
      "Google".data <:+: vendor.data → get_gce_vm vm facts = vm.gce) ∧
    (∀ vendor : String, facts.bios_vendor = some vendor →
      ¬ "Google".data <:+: vendor.data → get_gce_vm vm facts = "") ∧
    (vm.gce ≠ "" →
      (get_gce_vm vm facts = vm.gce ↔
        ∃ vendor : String, facts.bios_vendor = some vendor ∧
          "Google".data <:+: vendor.data)) := by
  have hyes : ∀ vendor : String, facts.bios_vendor = some vendor →
      "Google".data <:+: vendor.data → get_gce_vm vm facts = vm.gce := by
    intro vendor hv hsub
    have hc : contains vendor "Google" = true := (contains_iff_substring _ _).2 hsub
    simp only [get_gce_vm, hv, hc, if_true]
  have hno : ∀ vendor : String, facts.bios_vendor = some vendor →
      ¬ "Google".data <:+: vendor.data → get_gce_vm vm facts = "" := by
    intro vendor hv hsub
    have hc : contains vendor "Google" = false := by
      cases h : contains vendor "Google" with
      | false => rfl
      | true => exact absurd ((contains_iff_substring _ _).1 h) hsub
    simp only [get_gce_vm, hv, hc, Bool.false_eq_true, if_false]
  have hnone : facts.bios_vendor = none → get_gce_vm vm facts = "" := by
    intro hv
    simp only [get_gce_vm, hv]
  refine ⟨hnone, hyes, hno, ?_⟩
  intro hlabel
  constructor
  · intro hres
    cases hv : facts.bios_vendor with
    | none => exact absurd ((hnone hv).symm.trans hres).symm hlabel
    | some vendor =>
      by_cases hsub : "Google".data <:+: vendor.data
      · exact ⟨vendor, rfl, hsub⟩
      · exact absurd ((hno vendor hv hsub).symm.trans hres).symm hlabel
  · rintro ⟨vendor, hv, hsub⟩
    exact hyes vendor hv hsub

theorem get_gce_vm_google_witness :
    get_gce_vm sample_labels { bios_vendor := some "Google Inc.", product_name := none }
      = "gce" ∧
    get_gce_vm sample_labels { bios_vendor := some "google", product_name := none } = "" ∧
    get_gce_vm sample_labels no_facts = "" :=
  ⟨(get_gce_vm_google sample_labels
      { bios_vendor := some "Google Inc.", product_name := none }).2.1 "Google Inc." rfl
      ((contains_iff_substring "Google Inc." "Google").1 (by decide)),
   (get_gce_vm_google sample_labels
      { bios_vendor := some "google", product_name := none }).2.2.1 "google" rfl
      (fun h => absurd ((contains_iff_substring "google" "Google").2 h) (by decide)),
   (get_gce_vm_google sample_labels no_facts).1 rfl⟩

/-- A root path cannot start with both container markers. -/
theorem root_lxc_not_docker (line : String) (hlxc : root_starts_with line "/lxc/" = true) :
    root_starts_with line "/docker/" = false := by
  unfold root_starts_with at hlxc ⊢
  cases hroot : (split line ':')[2]? with
  | none => rfl
  | some root =>
    rw [hroot] at hlxc
    simp only [starts_with] at hlxc ⊢
    obtain ⟨cs⟩ := root
    rcases cs with _ | ⟨a, _ | ⟨b, t⟩⟩
    · simp [List.isPrefixOf] at hlxc
    · simp [List.isPrefixOf] at hlxc
    · simp only [List.isPrefixOf, Bool.and_eq_true, beq_iff_eq] at hlxc
      have hb : b = 'l' := hlxc.2.1.symm
      subst hb
      simp [List.isPrefixOf]

/-- The cgroup scan passes over the lines that have neither marker. -/
theorem each_line_cgroup_skip (vm : virtual_machine) (rest : List String) :
    ∀ (pre : List String) (value : String), (∀ l ∈ pre, cgroup_match l = false) →
      each_line (pre ++ rest) (cgroup_callback vm) value
        = each_line rest (cgroup_callback vm) value := by
  intro pre
  induction pre with
  | nil => intro value _; rfl
  | cons l tail ih =>
    intro value hpre
    have hl : cgroup_match l = false := hpre l (List.mem_cons_self _ _)
    simp only [cgroup_match, Bool.or_eq_false_iff] at hl
    simp only [List.cons_append, each_line, cgroup_callback_eq, hl.1, hl.2,
      Bool.false_eq_true, if_false]
    exact ih value (fun m hm => hpre m (List.mem_cons_of_mem _ hm))

/-- C20: `get_cgroup_vm` scans the lines of `/proc/1/cgroup` in order. A line
with fewer than three colon-separated fields is skipped, and so is a line whose
third field starts with neither marker; the scan stops at the first line whose
third field starts with "/docker/" (the result is the Docker label) or with
"/lxc/" (the result is the LXC label), whatever the lines after it; without
such a line the result is the empty string. -/
theorem get_cgroup_vm_first_match (vm : virtual_machine) (sys : host) :
    (∀ value line : String, (split line ':').length < 3 →
      cgroup_callback vm value line = (value, true) ∧ cgroup_match line = false) ∧
    (∀ (pre : List String) (line : String) (post : List String),
      sys.file_lines "/proc/1/cgroup" = pre ++ line :: post →
      (∀ l ∈ pre, cgroup_match l = false) →
      (root_starts_with line "/docker/" = true → get_cgroup_vm vm sys = vm.docker) ∧
      (root_starts_with line "/lxc/" = true → get_cgroup_vm vm sys = vm.lxc)) ∧
    ((∀ l ∈ sys.file_lines "/proc/1/cgroup", cgroup_match l = false) →
      get_cgroup_vm vm sys = "") := by
  refine ⟨?_, ?_, ?_⟩
  · intro value line hshort
    have hnone : (split line ':')[2]? = none := List.getElem?_eq_none (by omega)
    have hmatch : cgroup_match line = false := by
      simp [cgroup_match, root_starts_with, hnone]
    simp only [cgroup_match, Bool.or_eq_false_iff] at hmatch
    refine ⟨?_, by simp [cgroup_match, hmatch.1, hmatch.2]⟩
    simp only [cgroup_callback_eq, hmatch.1, hmatch.2, Bool.false_eq_true, if_false]
  · intro pre line post hlines hpre
    have hscan : get_cgroup_vm vm sys = (cgroup_callback vm "" line).1 ∨
        (cgroup_callback vm "" line).2 = true := by
      by_cases hstop : (cgroup_callback vm "" line).2 = true
      · exact Or.inr hstop
      · left
        unfold get_cgroup_vm
        simp only [hlines]
        rw [each_line_cgroup_skip vm (line :: post) pre "" hpre]
        unfold each_line
        rcases hc : cgroup_callback vm "" line with ⟨v, b⟩
        rw [hc] at hstop
        cases b
        · rfl
        · exact absurd rfl hstop
    constructor
    · intro hdocker
      have hcb : cgroup_callback vm "" line = (vm.docker, false) := by
        simp only [cgroup_callback_eq, hdocker, if_true]
      rw [hcb] at hscan
      rcases hscan with h | h
      · exact h
      · exact absurd h Bool.false_ne_true
    · intro hlxc
      have hdocker := root_lxc_not_docker line hlxc
      have hcb : cgroup_callback vm "" line = (vm.lxc, false) := by
        simp only [cgroup_callback_eq, hdocker, hlxc, Bool.false_eq_true, if_false, if_true]
      rw [hcb] at hscan
      rcases hscan with h | h
      · exact h
      · exact absurd h Bool.false_ne_true
  · intro hall
    unfold get_cgroup_vm
    have h := each_line_cgroup_skip vm [] (sys.file_lines "/proc/1/cgroup") "" hall
    rw [List.append_nil] at h
    exact h

theorem get_cgroup_vm_first_match_witness :
    get_cgroup_vm sample_labels lxc_cgroup_host = "lxc" ∧
    get_cgroup_vm sample_labels
      (with_file bare_host "/proc/1/cgroup" ["short:line", "4:memory:/user/1000"]) = "" :=
  ⟨((get_cgroup_vm_first_match sample_labels lxc_cgroup_host).2.1
      ["short:line", "4:memory:/user/1000"] "3:cpu:/lxc/a" ["2:cpu:/docker/b"]
      (by decide) (by decide)).2 (by decide),
   (get_cgroup_vm_first_match sample_labels
      (with_file bare_host "/proc/1/cgroup" ["short:line", "4:memory:/user/1000"])).2.2
      (by decide)⟩


/-! ## Fact values -/

/-- C15: for every string `s`, `write` on the string value of `s` sends the
emitter `DoubleQuoted` and then `s`, and nothing else, so `s` is written as a
double-quoted scalar. What the emitter receives differs from the bare string
and from what it receives for an integer or a boolean value (for "2" as for
the integer 2, for "true" as for the boolean). The text of the scalar, the
escaped content between two double quotes, is not the text `s` itself: always
when `s` does not begin with a double quote, and for every `s` when escaping
does not shorten it. -/
theorem string_value_write_double_quoted (s : String) (emitter : YAML.Emitter) :
    write (string_value s) emitter
      = emitter ++ [YAML.item.DoubleQuoted, YAML.item.string s] ∧
    write (string_value s) emitter ≠ emitter ++ [YAML.item.string s] ∧
    (∀ i : Int, write (string_value s) emitter ≠ write (integer_value i) emitter) ∧
    (∀ b : Bool, write (string_value s) emitter ≠ write (boolean_value b) emitter) ∧
    (∀ escape : String → String,
      (s.data.head? ≠ some '"' ∨ s.length ≤ (escape s).length) →
      YAML.double_quoted escape s ≠ s) := by
  refine ⟨rfl, ?_, ?_, ?_, ?_⟩
  · intro h
    have h2 := List.append_cancel_left h
    simp at h2
  · intro i h
    have h2 := List.append_cancel_left h
    simp at h2
  · intro b h
    have h2 := List.append_cancel_left h
    simp at h2
  · intro escape hs h
    have hdata : '"' :: ((escape s).data ++ ['"']) = s.data := by
      have := congrArg String.data h
      simpa [YAML.double_quoted] using this
    rcases hs with hhead | hlen
    · rw [← hdata] at hhead
      exact hhead rfl
    · have hl : s.data.length = (escape s).data.length + 2 := by
        rw [← hdata]
        simp
      have h1 : s.length = s.data.length := rfl
      have h2 : (escape s).length = (escape s).data.length := rfl
      omega

theorem string_value_write_double_quoted_witness :
    write (string_value "2") [] = [YAML.item.DoubleQuoted, YAML.item.string "2"] ∧
    YAML.double_quoted id "2" = "\"2\"" ∧
    YAML.double_quoted id "2" ≠ "2" :=
  ⟨(string_value_write_double_quoted "2" []).1, by decide,
   (string_value_write_double_quoted "2" []).2.2.2.2 id (Or.inl (by decide))⟩

/-- C16: `to_json` gives a JSON string with exactly the payload for a string
value (also for a payload that looks like a number), a JSON 64-bit integer with
the payload for an integer value and a JSON boolean with the payload for a
boolean value. The document value determines the variant and the payload:
`to_json` is injective, reading the document value back gives the value, and
rendering that again gives an equal document value. -/
theorem to_json_round_trip :
    (∀ s : String, to_json (string_value s) = rapidjson.Value.string s) ∧
    (∀ i : Int, to_json (integer_value i) = rapidjson.Value.int64 i) ∧
    (∀ b : Bool, to_json (boolean_value b) = rapidjson.Value.bool b) ∧
    to_json (string_value "2") ≠ to_json (integer_value 2) ∧
    (∀ v w : value, to_json v = to_json w → v = w) ∧
    (∀ v : value, of_json (to_json v) = some v) ∧
    (∀ v : value, (of_json (to_json v)).map to_json = some (to_json v)) := by
  refine ⟨fun _ => rfl, fun _ => rfl, fun _ => rfl, by decide, ?_, ?_, ?_⟩
  · intro v w h
    cases v <;> cases w <;> simp [to_json] at h <;> simp [h]
  · intro v
    cases v <;> rfl
  · intro v
    cases v <;> rfl

theorem to_json_round_trip_witness :
    to_json (string_value "2") = rapidjson.Value.string "2" ∧
    (to_json (integer_value (-7)) = to_json (integer_value (-7)) →
      integer_value (-7) = integer_value (-7)) :=
  ⟨to_json_round_trip.1 "2",
   to_json_round_trip.2.2.2.2.1 (integer_value (-7)) (integer_value (-7))⟩

/-- C17: for every boolean `b`, the boolean value of `b` renders as a boolean
in both forms: `to_json` sets a JSON boolean equal to `b`, never an integer or
a string, and `write` sends the emitter the boolean `b` itself, never an
integer, a string or a quoted string. -/
theorem boolean_value_renders_boolean (b : Bool) (emitter : YAML.Emitter) :
    to_json (boolean_value b) = rapidjson.Value.bool b ∧
    (∀ i : Int, to_json (boolean_value b) ≠ rapidjson.Value.int64 i) ∧
    (∀ s : String, to_json (boolean_value b) ≠ rapidjson.Value.string s) ∧
    write (boolean_value b) emitter = emitter ++ [YAML.item.bool b] ∧
    (∀ i : Int, write (boolean_value b) emitter ≠ emitter ++ [YAML.item.int64 i]) ∧
    (∀ s : String, write (boolean_value b) emitter ≠ emitter ++ [YAML.item.string s]) ∧
    (∀ s : String, write (boolean_value b) emitter
      ≠ emitter ++ [YAML.item.DoubleQuoted, YAML.item.string s]) := by
  refine ⟨rfl, ?_, ?_, rfl, ?_, ?_, ?_⟩
  · intro i h
    simp [to_json] at h
  · intro s h
    simp [to_json] at h
  · intro i h
    have h2 := List.append_cancel_left h
    simp at h2
  · intro s h
    have h2 := List.append_cancel_left h
    simp at h2
  · intro s h
    have h2 := List.append_cancel_left h
    simp at h2

/-! ## The PowerShell resolver -/

theorem findAux_not_mem (c : Char) :
    ∀ cs : List Char, c ∉ cs → std.findAux c cs = none := by
  intro cs
  induction cs with
  | nil => intro _; rfl
  | cons x xs ih =>
    intro h
    simp only [List.mem_cons, not_or] at h
    have hx : ¬ x = c := fun e => h.1 e.symm
    simp only [std.findAux, hx, if_false, ih h.2, Option.map_none']

theorem findAux_first (c : Char) (rest : List Char) :
    ∀ key : List Char, c ∉ key → std.findAux c (key ++ c :: rest) = some key.length := by
  intro key
  induction key with
  | nil => intro _; simp [std.findAux]
  | cons x xs ih =>
    intro h
    simp only [List.mem_cons, not_or] at h
    have hx : ¬ x = c := fun e => h.1 e.symm
    rw [List.cons_append]
    simp only [std.findAux, hx, if_false, ih h.2, Option.map_some', List.length_cons]

/-- The callback on a line without the separator, and on a line with it. -/
theorem callback_eq (facts : added_facts) :
    (∀ line : String, '=' ∉ line.data →
      powershell_resolver.callback facts line = (facts, true)) ∧
    (∀ key rest : List Char, '=' ∉ key →
      powershell_resolver.callback facts ⟨key ++ '=' :: rest⟩
        = (facts ++ [(boost.to_lower ⟨key⟩, string_value ⟨rest⟩)], true)) := by
  constructor
  · intro line h
    simp only [powershell_resolver.callback, std.find, findAux_not_mem '=' line.data h]
  · intro key rest h
    have hdrop : List.drop (key.length + 1) (key ++ '=' :: rest) = rest := by simp
    have htake : List.take key.length (key ++ '=' :: rest) = key := by simp
    simp only [powershell_resolver.callback, std.find, findAux_first '=' rest key h, std.substr,
      std.substr_from, List.drop_zero, hdrop, htake, add]

/-- C14: for a line without '=' the callback adds no fact; for a line with
'=' it adds exactly one string fact, whose name is the lower-cased text before
the first '=' and whose value is the text after the first '=', unchanged. For
the output "FOO=bar" followed by a line without '=', the only fact added is
foo with the value "bar". -/
theorem powershell_callback_adds (facts : added_facts) :
    (∀ line : String, '=' ∉ line.data →
      (powershell_resolver.callback facts line).1 = facts) ∧
    (∀ key rest : List Char, '=' ∉ key →
      (powershell_resolver.callback facts ⟨key ++ '=' :: rest⟩).1
        = facts ++ [(boost.to_lower ⟨key⟩, string_value ⟨rest⟩)]) ∧
    (∀ line : String, '=' ∉ line.data →
      each_line ["FOO=bar", line] powershell_resolver.callback facts
        = facts ++ [("foo", string_value "bar")]) := by
  refine ⟨?_, ?_, ?_⟩
  · intro line h
    rw [(callback_eq facts).1 line h]
  · intro key rest h
    rw [(callback_eq facts).2 key rest h]
  · intro line h
    have h1 : powershell_resolver.callback facts "FOO=bar"
        = (facts ++ [("foo", string_value "bar")], true) :=
      (callback_eq facts).2 ['F', 'O', 'O'] ['b', 'a', 'r'] (by decide)
    simp only [each_line, h1, (callback_eq _).1 line h]

theorem powershell_callback_adds_witness :
    (powershell_resolver.callback [] "WARNING: no separator").1 = [] ∧
    (powershell_resolver.callback [] "Key=a=b ").1 = [("key", string_value "a=b ")] ∧
    (powershell_resolver.resolve sample_windows "facts.ps1" []).1
      = [("foo", string_value "bar")] :=
  ⟨(powershell_callback_adds []).1 "WARNING: no separator" (by decide),
   (powershell_callback_adds []).2.1 ['K', 'e', 'y'] ['a', '=', 'b', ' '] (by decide),
   (powershell_callback_adds []).2.2 "WARNING: no separator" (by decide)⟩

/-- C19: `resolve` raises an `external_fact_exception` exactly when running the
script raises an `execution_exception`, and the exception carries the message
of that error; when the run succeeds `resolve` raises nothing. -/
theorem resolve_raises_on_failure (sys : windows) (file : String) (facts : added_facts) :
    (∀ what : String, (powershell_resolver.run_script sys file).failure = some what →
      (powershell_resolver.resolve sys file facts).2 = some ⟨what⟩) ∧
    ((powershell_resolver.run_script sys file).failure = none →
      (powershell_resolver.resolve sys file facts).2 = none) ∧
    ((powershell_resolver.resolve sys file facts).2.isSome
      = (powershell_resolver.run_script sys file).failure.isSome) := by
  refine ⟨?_, ?_, ?_⟩
  · intro what h
    simp only [powershell_resolver.resolve, h]
  · intro h
    simp only [powershell_resolver.resolve, h]
  · cases h : (powershell_resolver.run_script sys file).failure with
    | none => simp only [powershell_resolver.resolve, h, Option.isSome_none]
    | some what => simp only [powershell_resolver.resolve, h, Option.isSome_some]

theorem resolve_raises_on_failure_witness :
    (powershell_resolver.resolve failing_windows "facts.ps1" []).2
      = some ⟨"child process returned non-zero exit status."⟩ ∧
    (powershell_resolver.resolve sample_windows "facts.ps1" []).2 = none :=
  ⟨(resolve_raises_on_failure failing_windows "facts.ps1" []).1
      "child process returned non-zero exit status." rfl,
   (resolve_raises_on_failure sample_windows "facts.ps1" []).2.1 rfl⟩

/-! ## The DMI resolver -/

/-- The loop adds, in table order, the facts of the entries whose body does not
end with `continue`. -/
theorem resolve_loop_eq (fact : fact_names) (sys : sysfs) :
    ∀ (table : List (String × String)) (facts : added_facts),
      resolve_loop fact sys table facts = facts ++ table.filterMap (resolve_file fact sys) := by
  intro table
  induction table with
  | nil => intro facts; simp [resolve_loop]
  | cons dmi_file rest ih =>
    intro facts
    cases h : resolve_file fact sys dmi_file with
    | none => simp only [resolve_loop, h, ih, List.filterMap_cons]
    | some added =>
      obtain ⟨name, v⟩ := added
      simp only [resolve_loop, h, ih, List.filterMap_cons, add, List.append_assoc,
        List.singleton_append]

/-- The fact of a table entry depends only on the entry's own file. -/
theorem resolve_file_congr (fact : fact_names) (sys other : sysfs) (dmi_file : String × String)
    (hfile : other.is_regular_file dmi_file.2 = sys.is_regular_file dmi_file.2)
    (hread : other.read dmi_file.2 = sys.read dmi_file.2) :
    resolve_file fact other dmi_file = resolve_file fact sys dmi_file := by
  simp only [resolve_file, hfile, hread]

theorem resolve_file_isSome (fact : fact_names) (sys : sysfs) (dmi_file : String × String) :
    (resolve_file fact sys dmi_file).isSome
      = (sys.is_regular_file dmi_file.2 && (sys.read dmi_file.2).isSome) := by
  unfold resolve_file
  cases hfile : sys.is_regular_file dmi_file.2 with
  | false => simp [hfile]
  | true =>
    cases hread : sys.read dmi_file.2 with
    | none => simp [hfile, hread]
    | some content => simp [hfile, hread]

/-- The thirteen files of the table are different files. -/
theorem dmi_files_nodup (fact : fact_names) : ((dmi_files fact).map Prod.snd).Nodup := by
  simp only [dmi_files, List.map_cons, List.map_nil]
  decide

/-- C18: `resolve_facts`, a total function, adds the fact of a table entry
exactly when the entry's file is a regular file and can be read, and adds
nothing else: the facts added are those of the available entries, in table
order. When the file of one entry is missing or unreadable on another machine
that is otherwise the same, the facts added there are those of the other twelve
entries, each added or not and with the same value as before. -/
theorem resolve_facts_omits_unavailable (fact : fact_names) (sys : sysfs)
    (facts : added_facts) :
    (∀ dmi_file : String × String,
      (resolve_file fact sys dmi_file).isSome
        = (sys.is_regular_file dmi_file.2 && (sys.read dmi_file.2).isSome)) ∧
    resolve_facts fact sys facts
      = facts ++ (dmi_files fact).filterMap (resolve_file fact sys) ∧
    (∀ (pre : List (String × String)) (dmi_file : String × String)
        (post : List (String × String)) (other : sysfs),
      dmi_files fact = pre ++ dmi_file :: post →
      (∀ path : String, path ≠ dmi_file.2 →
        other.is_regular_file path = sys.is_regular_file path ∧
        other.read path = sys.read path) →
      (other.is_regular_file dmi_file.2 = false ∨ other.read dmi_file.2 = none) →
      resolve_facts fact other facts
        = facts ++ (pre ++ post).filterMap (resolve_file fact sys)) := by
  refine ⟨resolve_file_isSome fact sys, resolve_loop_eq fact sys _ facts, ?_⟩
  intro pre dmi_file post other htable hsame hgone
  have hnodup := dmi_files_nodup fact
  rw [htable] at hnodup
  simp only [List.map_append, List.map_cons, List.nodup_append, List.nodup_cons] at hnodup
  have hnone : resolve_file fact other dmi_file = none := by
    have h := resolve_file_isSome fact other dmi_file
    rcases hgone with hg | hg
    · rw [hg] at h
      simpa using h
    · rw [hg] at h
      simpa using h
  have hother : ∀ entry ∈ pre ++ post,
      resolve_file fact other entry = resolve_file fact sys entry := by
    intro entry hentry
    have hne : entry.2 ≠ dmi_file.2 := by
      intro heq
      rcases List.mem_append.1 hentry with hin | hin
      · have hmem : entry.2 ∈ pre.map Prod.snd := List.mem_map_of_mem _ hin
        exact hnodup.2.2 hmem (heq ▸ List.mem_cons_self _ _)
      · have hmem : entry.2 ∈ post.map Prod.snd := List.mem_map_of_mem _ hin
        exact hnodup.2.1.1 (heq ▸ hmem)
    exact resolve_file_congr fact sys other entry (hsame entry.2 hne).1 (hsame entry.2 hne).2
  have hpre : pre.filterMap (resolve_file fact other)
      = pre.filterMap (resolve_file fact sys) :=
    List.filterMap_congr (fun entry h => hother entry (List.mem_append_left _ h))
  have hpost : post.filterMap (resolve_file fact other)
      = post.filterMap (resolve_file fact sys) :=
    List.filterMap_congr (fun entry h => hother entry (List.mem_append_right _ h))
  unfold resolve_facts
  rw [resolve_loop_eq, htable]
  simp only [List.filterMap_append, List.filterMap_cons, hnone, hpre, hpost]

theorem resolve_facts_omits_unavailable_witness :
    resolve_facts sample_names sample_sysfs []
      = [("bios_vendor", string_value "Dell Inc."), ("chassis_type", string_value "Laptop")] ∧
    resolve_facts sample_names sample_sysfs_no_vendor []
      = [("chassis_type", string_value "Laptop")] ∧
    resolve_facts sample_names sample_sysfs_no_vendor []
      = [] ++ (([] : List (String × String)) ++ (dmi_files sample_names).tail).filterMap
          (resolve_file sample_names sample_sysfs) :=
  ⟨by decide, by decide,
   (resolve_facts_omits_unavailable sample_names sample_sysfs []).2.2
      [] ("bios_vendor", "/sys/class/dmi/id/bios_vendor") (dmi_files sample_names).tail
      sample_sysfs_no_vendor rfl
      (fun path hne => by
        have hne2 : ¬ path = "/sys/class/dmi/id/bios_vendor" := hne
        simp [sample_sysfs, sample_sysfs_no_vendor, hne2])
      (Or.inl (by decide))⟩


/-! ## Normalisation of virt-what's answer, and the chain without two steps -/

/-- C21: with `line` the chosen line of virt-what's output and `l` its
lower-casing, `get_what_vm` returns `vm::xen_hardware` for `l` = "xen-hvm",
`vm::xen_privileged` for "xen-dom0", `vm::xen_unprivileged` for "xen-domu",
`vm::zlinux` for "ibm_systemz", and `l` itself for every other `l` except
"linux_vserver". -/
theorem get_what_vm_normalises (vm : virtual_machine) (sys : host) (line : String)
    (hchosen : chosen_line (sys.command_lines "virt-what") = some line) :
    (to_lower line = "xen-hvm" → get_what_vm vm sys = vm.xen_hardware) ∧
    (to_lower line = "xen-dom0" → get_what_vm vm sys = vm.xen_privileged) ∧
    (to_lower line = "xen-domu" → get_what_vm vm sys = vm.xen_unprivileged) ∧
    (to_lower line = "ibm_systemz" → get_what_vm vm sys = vm.zlinux) ∧
    (to_lower line ≠ "linux_vserver" → to_lower line ≠ "xen-hvm" →
      to_lower line ≠ "xen-dom0" → to_lower line ≠ "xen-domu" →
      to_lower line ≠ "ibm_systemz" → get_what_vm vm sys = to_lower line) := by
  have hne : ∀ known : String, known ≠ "" → to_lower line = known → line ≠ "" := by
    intro known hknown hl h
    rw [h] at hl
    exact hknown (hl.symm.trans rfl)
  rw [get_what_vm_eq, hchosen]
  refine ⟨?_, ?_, ?_, ?_, ?_⟩
  · intro h
    have h0 := hne _ (by decide) h
    simp only [h0, h, if_false, if_true]
    rfl
  · intro h
    have h0 := hne _ (by decide) h
    simp only [h0, h, if_false, if_true]
    rfl
  · intro h
    have h0 := hne _ (by decide) h
    simp only [h0, h, if_false, if_true]
    rfl
  · intro h
    have h0 := hne _ (by decide) h
    simp only [h0, h, if_false, if_true]
    rfl
  · intro h1 h2 h3 h4 h5
    by_cases h0 : line = ""
    · simp only [h0, if_true]
      rfl
    · simp only [h0, h1, h2, h3, h4, h5, if_false]

theorem get_what_vm_normalises_witness :
    get_what_vm sample_labels (with_command bare_host "virt-what" ["XEN-HVM"]) = "xen_hardware" ∧
    get_what_vm sample_labels (with_command bare_host "virt-what" ["Xen-Dom0"])
      = "xen_privileged" ∧
    get_what_vm sample_labels (with_command bare_host "virt-what" ["xen-domU"])
      = "xen_unprivileged" ∧
    get_what_vm sample_labels (with_command bare_host "virt-what" ["IBM_SystemZ"]) = "zlinux" ∧
    get_what_vm sample_labels (with_command bare_host "virt-what" ["virt-what: note", "KVM"])
      = "kvm" :=
  ⟨(get_what_vm_normalises sample_labels (with_command bare_host "virt-what" ["XEN-HVM"])
      "XEN-HVM" (by decide)).1 (by decide),
   (get_what_vm_normalises sample_labels (with_command bare_host "virt-what" ["Xen-Dom0"])
      "Xen-Dom0" (by decide)).2.1 (by decide),
   (get_what_vm_normalises sample_labels (with_command bare_host "virt-what" ["xen-domU"])
      "xen-domU" (by decide)).2.2.1 (by decide),
   (get_what_vm_normalises sample_labels (with_command bare_host "virt-what" ["IBM_SystemZ"])
      "IBM_SystemZ" (by decide)).2.2.2.1 (by decide),
   (get_what_vm_normalises sample_labels
      (with_command bare_host "virt-what" ["virt-what: note", "KVM"])
      "KVM" (by decide)).2.2.2.2 (by decide) (by decide) (by decide) (by decide) (by decide)⟩

/-- The chain of `get_hypervisor` is the six-step chain. -/
theorem get_hypervisor_eq_six_step (vm : virtual_machine) (sys : host) (facts : collection) :
    get_hypervisor vm sys facts = six_step_chain vm sys facts := by
  unfold get_hypervisor six_step_chain
  simp only [openvz_check_empty, get_vserver_vm_eq_empty]
  by_cases h1 : get_cgroup_vm vm sys = "" <;> simp only [h1, if_true, if_false]
  by_cases h2 : get_gce_vm vm facts = "" <;> simp only [h2, if_true, if_false]
  by_cases h3 : get_what_vm vm sys = "" <;> simp only [h3, if_true, if_false]
  by_cases h4 : get_vmware_vm sys = "" <;> simp only [h4, if_true, if_false]

/-- C24: `get_vserver_vm` and `get_openvz_vm` give the empty string on every
host, so `get_hypervisor` returns what the chain of the six other checks
(cgroup, GCE, virt-what, vmware, Xen files, product name) returns; and when the
chosen line of virt-what's output is "linux_vserver" in any case, `get_what_vm`
gives the empty string, so that after an empty cgroup and GCE result the answer
is that of the vmware check, or of the checks after it when vmware gives
nothing. -/
theorem get_hypervisor_without_vserver_openvz (vm : virtual_machine) (sys : host)
    (facts : collection) :
    get_vserver_vm vm sys = "" ∧
    get_openvz_vm vm sys = "" ∧
    get_hypervisor vm sys facts = six_step_chain vm sys facts ∧
    (∀ line : String, chosen_line (sys.command_lines "virt-what") = some line →
      to_lower line = "linux_vserver" →
      get_what_vm vm sys = "" ∧
      (get_cgroup_vm vm sys = "" → get_gce_vm vm facts = "" →
        get_hypervisor vm sys facts
          = first_non_empty
              [get_vmware_vm sys, get_xen_vm vm sys, get_product_name_vm vm facts])) := by
  refine ⟨get_vserver_vm_eq_empty vm sys, openvz_check_empty vm sys,
    get_hypervisor_eq_six_step vm sys facts, ?_⟩
  intro line hchosen hlower
  have hne : line ≠ "" := by
    intro h
    rw [h] at hlower
    exact absurd hlower (by decide)
  have hwhat : get_what_vm vm sys = "" := by
    rw [get_what_vm_eq, hchosen]
    simp only [hne, hlower, if_false, if_true]
    exact get_vserver_vm_eq_empty vm sys
  refine ⟨hwhat, ?_⟩
  intro hcgroup hgce
  rw [get_hypervisor_eq_first_non_empty]
  simp only [checks, first_non_empty, hcgroup, hgce, hwhat, openvz_check_empty,
    get_vserver_vm_eq_empty, if_true]

theorem get_hypervisor_without_vserver_openvz_witness :
    get_what_vm sample_labels vserver_vmware_host = "" ∧
    get_hypervisor sample_labels vserver_vmware_host no_facts
      = first_non_empty
          [get_vmware_vm vserver_vmware_host, get_xen_vm sample_labels vserver_vmware_host,
            get_product_name_vm sample_labels no_facts] ∧
    get_hypervisor sample_labels vserver_vmware_host no_facts = "vmware_server" :=
  ⟨((get_hypervisor_without_vserver_openvz sample_labels vserver_vmware_host no_facts).2.2.2
      "linux_vserver" (by decide) (by decide)).1,
   ((get_hypervisor_without_vserver_openvz sample_labels vserver_vmware_host no_facts).2.2.2
      "linux_vserver" (by decide) (by decide)).2 (by decide) (by decide),
   by decide⟩

/-! ## The chassis table -/

/-- A code that is a key of the table has a description other than
"Unknown". -/
theorem get_chassis_description_of_key (type : String)
    (hkey : type ∈ descriptions.map Prod.fst) : get_chassis_description type ≠ "Unknown" := by
  simp only [descriptions, List.map_cons, List.map_nil, List.mem_cons, List.mem_singleton,
    List.not_mem_nil, or_false] at hkey
  rcases hkey with h | h | h | h | h | h | h | h | h | h | h | h | h | h | h | h | h | h | h |
    h | h | h | h <;> subst h <;> decide

/-- C23: `get_chassis_description` returns "Unknown" exactly for the strings
that are not a key of its table, and the keys are the decimal strings of 1 and
of 3 to 24. So "2" gives "Unknown", and so do "09", " 9" and "25", which are
not the exact string of a key; no key gives "Unknown". -/
theorem get_chassis_description_unknown_iff :
    descriptions.map Prod.fst = (1 :: List.range' 3 22).map Nat.repr ∧
    (∀ type : String,
      get_chassis_description type = "Unknown" ↔ type ∉ descriptions.map Prod.fst) ∧
    (∀ n : Nat, n < 100 →
      (get_chassis_description (Nat.repr n) = "Unknown" ↔ ¬ (n = 1 ∨ 3 ≤ n ∧ n ≤ 24))) ∧
    get_chassis_description "2" = "Unknown" ∧
    get_chassis_description "09" = "Unknown" ∧
    get_chassis_description " 9" = "Unknown" ∧
    get_chassis_description "25" = "Unknown" ∧
    get_chassis_description "9" = "Laptop" := by
  have hiff : ∀ type : String,
      get_chassis_description type = "Unknown" ↔ type ∉ descriptions.map Prod.fst := by
    intro type
    constructor
    · intro h hkey
      exact get_chassis_description_of_key type hkey h
    · intro h
      unfold get_chassis_description
      rw [lookup_eq_none_of_not_key type descriptions h]
  refine ⟨by decide, hiff, by decide, by decide, by decide, by decide, by decide, by decide⟩

theorem get_chassis_description_unknown_iff_witness :
    get_chassis_description "024" = "Unknown" ∧
    (get_chassis_description (Nat.repr 24) = "Unknown" ↔ ¬ (24 = 1 ∨ 3 ≤ 24 ∧ 24 ≤ 24)) ∧
    get_chassis_description "24" = "Sealed-Case PC" :=
  ⟨(get_chassis_description_unknown_iff.2.1 "024").2 (by decide),
   get_chassis_description_unknown_iff.2.2.1 24 (by decide), by decide⟩

/-! ## The values of the DMI facts -/

theorem dropWhile_all (p : Char → Bool) (rest : List Char) :
    ∀ ws : List Char, (∀ c ∈ ws, p c = true) →
      (ws ++ rest).dropWhile p = rest.dropWhile p := by
  intro ws
  induction ws with
  | nil => intro _; rfl
  | cons c cs ih =>
    intro h
    have hc : p c = true := h c (List.mem_cons_self _ _)
    rw [List.cons_append, List.dropWhile_cons, if_pos hc]
    exact ih (fun d hd => h d (List.mem_cons_of_mem _ hd))

/-- The helper `trim` removes the whitespace around a text that neither begins
nor ends with whitespace. -/
theorem trim_eq (ws1 core ws2 : List Char)
    (hws1 : ∀ c ∈ ws1, isspace c = true) (hws2 : ∀ c ∈ ws2, isspace c = true)
    (hhead : ∀ c, core.head? = some c → isspace c = false)
    (hlast : ∀ c, core.getLast? = some c → isspace c = false) :
    trim ⟨ws1 ++ core ++ ws2⟩ = ⟨core⟩ := by
  unfold trim
  congr 1
  simp only [List.append_assoc]
  rw [dropWhile_all isspace _ ws1 hws1]
  cases core with
  | nil =>
    have h := dropWhile_all isspace [] ws2 hws2
    simp only [List.append_nil, List.dropWhile_nil] at h
    simp [h]
  | cons c t =>
    have hc : isspace c = false := hhead c rfl
    have h1 : ((c :: t) ++ ws2).dropWhile isspace = (c :: t) ++ ws2 := by
      rw [List.cons_append, List.dropWhile_cons]
      simp [hc]
    rw [h1, List.reverse_append]
    rw [dropWhile_all isspace _ ws2.reverse (fun d hd => hws2 d (List.mem_reverse.1 hd))]
    have h2 : (c :: t).reverse.dropWhile isspace = (c :: t).reverse := by
      cases hr : (c :: t).reverse with
      | nil => rfl
      | cons l r =>
        have hl : (c :: t).getLast? = some l := by
          rw [List.getLast?_eq_head?_reverse, hr]
          rfl
        have hsp : isspace l = false := hlast l hl
        rw [List.dropWhile_cons]
        simp [hsp]
    rw [h2, List.reverse_reverse]

/-- The fact of an entry, when there is one, has the name of the entry and a
string value. -/
theorem resolve_file_some (fact : fact_names) (sys : sysfs) (dmi_file : String × String)
    (added : String × value) (h : resolve_file fact sys dmi_file = some added) :
    added.1 = dmi_file.1 ∧ ∃ s : String, added.2 = string_value s := by
  unfold resolve_file at h
  cases hfile : sys.is_regular_file dmi_file.2 with
  | false => simp [hfile] at h
  | true =>
    cases hread : sys.read dmi_file.2 with
    | none => simp [hfile, hread] at h
    | some content =>
      simp only [hfile, hread, Bool.not_true, Bool.false_eq_true, if_false,
        Option.some.injEq] at h
      rw [← h]
      exact ⟨rfl, _, rfl⟩

/-- The fact of an entry whose file is readable. -/
theorem resolve_file_readable (fact : fact_names) (sys : sysfs) (dmi_file : String × String)
    (content : String) (hfile : sys.is_regular_file dmi_file.2 = true)
    (hread : sys.read dmi_file.2 = some content) :
    resolve_file fact sys dmi_file
      = some (dmi_file.1, string_value
          (if dmi_file.1 = fact.chassis_type then get_chassis_description (trim content)
           else trim content)) := by
  simp only [resolve_file, hfile, hread, Bool.not_true, Bool.false_eq_true, if_false]

/-- The names of the facts added are, in order, names of the table. -/
theorem resolve_names_sublist (fact : fact_names) (sys : sysfs) :
    ∀ table : List (String × String),
      ((table.filterMap (resolve_file fact sys)).map Prod.fst).Sublist
        (table.map Prod.fst) := by
  intro table
  induction table with
  | nil => simp
  | cons dmi_file rest ih =>
    cases h : resolve_file fact sys dmi_file with
    | none =>
      simp only [List.filterMap_cons, h, List.map_cons]
      exact List.Sublist.cons _ ih
    | some added =>
      have hname := (resolve_file_some fact sys dmi_file added h).1
      simp only [List.filterMap_cons, h, List.map_cons, hname]
      exact List.Sublist.cons₂ _ ih

/-- C22: for a table entry whose file is readable, the fact added has the name
of the entry and a string value: the file content with leading and trailing
whitespace trimmed for an entry other than the chassis-type one, and
`get_chassis_description` of the trimmed content for the chassis-type entry
(the content "9" followed by a newline gives "Laptop"). The facts are added in
table order, each is a string value, and their names are names of the thirteen
table entries. -/
theorem resolve_facts_values (fact : fact_names) (sys : sysfs) (facts : added_facts) :
    (∀ (dmi_file : String × String) (content : String),
      sys.is_regular_file dmi_file.2 = true → sys.read dmi_file.2 = some content →
      dmi_file.1 ≠ fact.chassis_type →
      resolve_file fact sys dmi_file = some (dmi_file.1, string_value (trim content))) ∧
    (∀ (dmi_file : String × String) (ws1 core ws2 : List Char),
      sys.is_regular_file dmi_file.2 = true →
      sys.read dmi_file.2 = some ⟨ws1 ++ core ++ ws2⟩ →
      dmi_file.1 ≠ fact.chassis_type →
      (∀ c ∈ ws1, isspace c = true) → (∀ c ∈ ws2, isspace c = true) →
      (∀ c, core.head? = some c → isspace c = false) →
      (∀ c, core.getLast? = some c → isspace c = false) →
      resolve_file fact sys dmi_file = some (dmi_file.1, string_value ⟨core⟩)) ∧
    (∀ content : String,
      sys.is_regular_file "/sys/class/dmi/id/chassis_type" = true →
      sys.read "/sys/class/dmi/id/chassis_type" = some content →
      resolve_file fact sys (fact.chassis_type, "/sys/class/dmi/id/chassis_type")
        = some (fact.chassis_type, string_value (get_chassis_description (trim content)))) ∧
    (sys.is_regular_file "/sys/class/dmi/id/chassis_type" = true →
      sys.read "/sys/class/dmi/id/chassis_type" = some "9\n" →
      resolve_file fact sys (fact.chassis_type, "/sys/class/dmi/id/chassis_type")
        = some (fact.chassis_type, string_value "Laptop")) ∧
    resolve_facts fact sys facts
      = facts ++ (dmi_files fact).filterMap (resolve_file fact sys) ∧
    (((dmi_files fact).filterMap (resolve_file fact sys)).map Prod.fst).Sublist
      [fact.bios_vendor, fact.bios_version, fact.bios_release_date, fact.board_asset_tag,
        fact.board_manufacturer, fact.board_product_name, fact.board_serial_number,
        fact.chassis_asset_tag, fact.manufacturer, fact.product_name, fact.serial_number,
        fact.product_uuid, fact.chassis_type] ∧
    (∀ added ∈ (dmi_files fact).filterMap (resolve_file fact sys),
      ∃ s : String, added.2 = string_value s) := by
  have hchassis : ∀ content : String,
      sys.is_regular_file "/sys/class/dmi/id/chassis_type" = true →
      sys.read "/sys/class/dmi/id/chassis_type" = some content →
      resolve_file fact sys (fact.chassis_type, "/sys/class/dmi/id/chassis_type")
        = some (fact.chassis_type, string_value (get_chassis_description (trim content))) := by
    intro content hfile hread
    rw [resolve_file_readable fact sys _ content hfile hread]
    simp only [if_true]
  have hother : ∀ (dmi_file : String × String) (content : String),
      sys.is_regular_file dmi_file.2 = true → sys.read dmi_file.2 = some content →
      dmi_file.1 ≠ fact.chassis_type →
      resolve_file fact sys dmi_file = some (dmi_file.1, string_value (trim content)) := by
    intro dmi_file content hfile hread hname
    rw [resolve_file_readable fact sys dmi_file content hfile hread]
    simp only [hname, if_false]
  refine ⟨hother, ?_, hchassis, ?_, resolve_loop_eq fact sys _ facts,
    resolve_names_sublist fact sys (dmi_files fact), ?_⟩
  · intro dmi_file ws1 core ws2 hfile hread hname hws1 hws2 hhead hlast
    rw [hother dmi_file _ hfile hread hname, trim_eq ws1 core ws2 hws1 hws2 hhead hlast]
  · intro hfile hread
    rw [hchassis "9\n" hfile hread]
    rfl
  · intro added hadded
    obtain ⟨dmi_file, _, hsome⟩ := List.mem_filterMap.1 hadded
    exact (resolve_file_some fact sys dmi_file added hsome).2

theorem resolve_facts_values_witness :
    resolve_file sample_names sample_sysfs ("bios_vendor", "/sys/class/dmi/id/bios_vendor")
      = some ("bios_vendor", string_value "Dell Inc.") ∧
    resolve_file sample_names sample_sysfs ("chassis_type", "/sys/class/dmi/id/chassis_type")
      = some ("chassis_type", string_value "Laptop") ∧
    resolve_facts sample_names sample_sysfs []
      = [("bios_vendor", string_value "Dell Inc."), ("chassis_type", string_value "Laptop")] :=
  ⟨(resolve_facts_values sample_names sample_sysfs []).2.1
      ("bios_vendor", "/sys/class/dmi/id/bios_vendor") [] "Dell Inc.".data ['\n']
      (by decide) rfl (by decide) (by decide) (by decide)
      (fun c h => by
        have hc : c = 'D' := (Option.some.inj h).symm
        subst hc
        decide)
      (fun c h => by
        have hc : c = '.' := (Option.some.inj h).symm
        subst hc
        decide),
   (resolve_facts_values sample_names sample_sysfs []).2.2.2.1 (by decide) rfl,
   by decide⟩

/-! ## `can_resolve` and the line callback of the PowerShell resolver -/

/-- The characters that `toupper` maps to a given character that is not a
lower-case letter: the character itself and, for a capital letter, its
lower-case form. -/
theorem toUpper_eq_iff (c target : Char)
    (htarget : ¬ (97 ≤ target.toNat ∧ target.toNat ≤ 122)) :
    c.toUpper = target ↔
      c = target ∨ (97 ≤ c.toNat ∧ c.toNat ≤ 122 ∧ Char.ofNat (c.toNat - 32) = target) := by
  unfold Char.toUpper
  by_cases hrange : c.toNat ≥ 97 ∧ c.toNat ≤ 122
  · simp only [hrange, and_self, if_true, true_and]
    constructor
    · intro h
      exact Or.inr h
    · rintro (h | h)
      · rw [h] at hrange
        exact absurd hrange htarget
      · exact h
  · simp only [hrange, if_false]
    constructor
    · intro h
      exact Or.inl h
    · rintro (h | h)
      · exact h
      · exact absurd ⟨h.1, h.2.1⟩ hrange

/-- A lower-case letter is determined by its capital form. -/
theorem lower_of_upper (c : Char) (code : Nat) (hlow : 97 ≤ c.toNat) (hhigh : c.toNat ≤ 122)
    (hcode : Char.ofNat (c.toNat - 32) = Char.ofNat code) (hc : 65 ≤ code ∧ code ≤ 90) :
    c = Char.ofNat (code + 32) := by
  have hrepr : c = Char.ofNat c.toNat := (Char.ofNat_toNat c).symm
  generalize c.toNat = n at hlow hhigh hcode hrepr
  subst hrepr
  obtain ⟨h1, h2⟩ := hc
  have hn : n - 32 = code := by
    have hval := congrArg Char.toNat hcode
    interval_cases n <;> interval_cases code <;> first | rfl | (exact absurd hval (by decide))
  have : n = code + 32 := by omega
  rw [this]

/-- The capital form of a lower-case letter is a capital letter. -/
theorem upper_is_capital (n : Nat) (target : Char) (hlow : 97 ≤ n) (hhigh : n ≤ 122)
    (h : Char.ofNat (n - 32) = target) : 65 ≤ target.toNat ∧ target.toNat ≤ 90 := by
  subst h
  interval_cases n <;> decide

/-- Only a character that is not a letter is mapped to itself alone. -/
theorem toUpper_eq_other (c target : Char)
    (hlower : ¬ (97 ≤ target.toNat ∧ target.toNat ≤ 122))
    (hcapital : ¬ (65 ≤ target.toNat ∧ target.toNat ≤ 90)) :
    c.toUpper = target ↔ c = target := by
  rw [toUpper_eq_iff c target hlower]
  constructor
  · rintro (h | ⟨h1, h2, h3⟩)
    · exact h
    · exact absurd (upper_is_capital c.toNat target h1 h2 h3) hcapital
  · intro h
    exact Or.inl h

/-- A capital letter is the image of itself and of its lower-case form. -/
theorem toUpper_eq_capital (c : Char) (code : Nat) (hcode : 65 ≤ code ∧ code ≤ 90) :
    c.toUpper = Char.ofNat code ↔ c = Char.ofNat code ∨ c = Char.ofNat (code + 32) := by
  have hto : (Char.ofNat code).toNat = code := by
    obtain ⟨h1, h2⟩ := hcode
    interval_cases code <;> rfl
  rw [toUpper_eq_iff c (Char.ofNat code) (by rw [hto]; omega)]
  constructor
  · rintro (h | ⟨h1, h2, h3⟩)
    · exact Or.inl h
    · exact Or.inr (lower_of_upper c code h1 h2 h3 hcode)
  · rintro (h | h)
    · exact Or.inl h
    · right
      subst h
      obtain ⟨h1, h2⟩ := hcode
      interval_cases code <;> decide

/-- The names that end with ".ps1" when case is ignored. -/
theorem iends_with_ps1 (file : String) :
    boost.iends_with file ".ps1" = true ↔
      ∃ (stem : List Char) (p s : Char), file.data = stem ++ ['.', p, s, '1'] ∧
        (p = 'p' ∨ p = 'P') ∧ (s = 's' ∨ s = 'S') := by
  unfold boost.iends_with
  rw [List.isSuffixOf_iff_suffix]
  have hsuffix : ".ps1".data.map Char.toUpper = ['.', 'P', 'S', '1'] := by decide
  rw [hsuffix]
  have hdot : ∀ c : Char, c.toUpper = '.' ↔ c = '.' :=
    fun c => toUpper_eq_other c '.' (by decide) (by decide)
  have hone : ∀ c : Char, c.toUpper = '1' ↔ c = '1' :=
    fun c => toUpper_eq_other c '1' (by decide) (by decide)
  have hp : ∀ c : Char, c.toUpper = 'P' ↔ c = 'P' ∨ c = 'p' :=
    fun c => toUpper_eq_capital c 80 (by decide)
  have hs : ∀ c : Char, c.toUpper = 'S' ↔ c = 'S' ∨ c = 's' :=
    fun c => toUpper_eq_capital c 83 (by decide)
  constructor
  · rintro ⟨t, ht⟩
    obtain ⟨stem, tail, hfile, _, htail⟩ := List.map_eq_append_iff.1 ht.symm
    rcases tail with _ | ⟨a, _ | ⟨b, _ | ⟨c, _ | ⟨d, _ | ⟨e, rest⟩⟩⟩⟩⟩ <;>
      simp only [List.map_cons, List.map_nil, List.cons.injEq, and_true, reduceCtorEq,
        and_false, false_and] at htail
    obtain ⟨ha, hb, hc, hd⟩ := htail
    rw [hdot] at ha
    rw [hp] at hb
    rw [hs] at hc
    rw [hone] at hd
    subst ha
    subst hd
    exact ⟨stem, b, c, hfile, hb.symm, hc.symm⟩
  · rintro ⟨stem, p, s, hfile, hpp, hss⟩
    refine ⟨stem.map Char.toUpper, ?_⟩
    rw [hfile]
    have hpu : p.toUpper = 'P' := (hp p).2 hpp.symm
    have hsu : s.toUpper = 'S' := (hs s).2 hss.symm
    have hdu : '.'.toUpper = '.' := by decide
    have hou : '1'.toUpper = '1' := by decide
    simp only [List.map_append, List.map_cons, List.map_nil, hpu, hsu, hdu, hou]

/-- C25: `can_resolve` returns true exactly when the file name ends with ".ps1",
case being ignored, and the path is a regular file; when reading the status of
the path raises a filesystem error it returns false. "A.PS1" ends with ".ps1"
in that sense, "a.ps1x" and "a.ps" do not. -/
theorem can_resolve_ps1 (fs : file_status) (file : String) :
    (powershell_resolver.can_resolve fs file = true ↔
      (∃ (stem : List Char) (p s : Char), file.data = stem ++ ['.', p, s, '1'] ∧
        (p = 'p' ∨ p = 'P') ∧ (s = 's' ∨ s = 'S')) ∧
      fs.is_regular_file file = some true) ∧
    (fs.is_regular_file file = none → powershell_resolver.can_resolve fs file = false) ∧
    boost.iends_with "A.PS1" ".ps1" = true ∧
    boost.iends_with "a.ps1x" ".ps1" = false ∧
    boost.iends_with "a.ps" ".ps1" = false ∧
    (∀ other : file_status, powershell_resolver.can_resolve other "a.ps1x" = false ∧
      powershell_resolver.can_resolve other "a.ps" = false) := by
  have hmain : powershell_resolver.can_resolve fs file = true ↔
      boost.iends_with file ".ps1" = true ∧ fs.is_regular_file file = some true := by
    unfold powershell_resolver.can_resolve
    cases hname : boost.iends_with file ".ps1" with
    | false => simp
    | true =>
      cases hstatus : fs.is_regular_file file with
      | none => simp
      | some result => simp
  refine ⟨?_, ?_, by decide, by decide, by decide, ?_⟩
  · rw [hmain, iends_with_ps1]
  · intro hraise
    unfold powershell_resolver.can_resolve
    cases hname : boost.iends_with file ".ps1" with
    | false => simp
    | true => simp [hraise]
  · intro other
    have h1 : boost.iends_with "a.ps1x" ".ps1" = false := by decide
    have h2 : boost.iends_with "a.ps" ".ps1" = false := by decide
    constructor
    · simp [powershell_resolver.can_resolve, h1]
    · simp [powershell_resolver.can_resolve, h2]

theorem can_resolve_ps1_witness :
    powershell_resolver.can_resolve sample_files "C:\\facts\\A.PS1" = true ∧
    powershell_resolver.can_resolve sample_files "C:\\locked\\b.ps1" = false ∧
    powershell_resolver.can_resolve sample_files "C:\\facts\\a.ps1x" = false :=
  ⟨(can_resolve_ps1 sample_files "C:\\facts\\A.PS1").1.2
      ⟨⟨"C:\\facts\\A".data, 'P', 'S', rfl, Or.inr rfl, Or.inr rfl⟩, by decide⟩,
   (can_resolve_ps1 sample_files "C:\\locked\\b.ps1").2.1 (by decide),
   by decide⟩

theorem findAux_eq_none_iff (c : Char) :
    ∀ cs : List Char, std.findAux c cs = none ↔ c ∉ cs := by
  intro cs
  induction cs with
  | nil => simp [std.findAux]
  | cons x xs ih =>
    by_cases hx : x = c
    · simp [std.findAux, hx]
    · have hx2 : ¬ c = x := fun e => hx e.symm
      simp [std.findAux, hx, hx2, ih]

/-- The callback always answers "continue", and adds one fact or none. -/
theorem callback_continues (facts : added_facts) (line : String) :
    (powershell_resolver.callback facts line).2 = true ∧
    (powershell_resolver.callback facts line).1.length
      = facts.length + (if line.data.contains '=' then 1 else 0) := by
  unfold powershell_resolver.callback std.find
  cases h : std.findAux '=' line.data with
  | none =>
    have hnot : '=' ∉ line.data := (findAux_eq_none_iff '=' line.data).1 h
    simp [hnot]
  | some pos =>
    have hmem : '=' ∈ line.data := by
      by_contra hnot
      rw [(findAux_eq_none_iff '=' line.data).2 hnot] at h
      exact absurd h (by simp)
    simp [hmem, add]

/-- Every line is passed to the callback. -/
theorem each_line_callback (lines : List String) :
    ∀ facts : added_facts,
      each_line lines powershell_resolver.callback facts
        = lines.foldl (fun acc line => (powershell_resolver.callback acc line).1) facts := by
  induction lines with
  | nil => intro facts; rfl
  | cons line rest ih =>
    intro facts
    have hcont := (callback_continues facts line).1
    unfold each_line
    rcases hc : powershell_resolver.callback facts line with ⟨facts', b⟩
    rw [hc] at hcont
    simp only at hcont
    subst hcont
    simp only [List.foldl_cons, hc]
    exact ih facts'

theorem each_line_callback_length (lines : List String) :
    ∀ facts : added_facts,
      (each_line lines powershell_resolver.callback facts).length
        = facts.length + lines.countP (fun line => line.data.contains '=') := by
  induction lines with
  | nil => intro facts; rfl
  | cons line rest ih =>
    intro facts
    rw [each_line_callback, List.foldl_cons, ← each_line_callback, ih,
      (callback_continues facts line).2, List.countP_cons]
    omega

/-- C26: the line callback of `resolve` answers "continue" for every line, so
every line of the script output is passed to it; the number of facts added,
counted as calls of `facts.add`, is the number of lines that contain '=' (two
lines with the same key make two calls for one name); and a line that begins
with '=' adds a fact whose name is the empty string. -/
theorem callback_never_stops (sys : windows) (file : String) (facts : added_facts) :
    (∀ (acc : added_facts) (line : String),
      (powershell_resolver.callback acc line).2 = true) ∧
    (∀ (lines : List String) (acc : added_facts),
      each_line lines powershell_resolver.callback acc
        = lines.foldl (fun acc line => (powershell_resolver.callback acc line).1) acc) ∧
    (∀ (lines : List String) (acc : added_facts),
      (each_line lines powershell_resolver.callback acc).length
        = acc.length + lines.countP (fun line => line.data.contains '=')) ∧
    (powershell_resolver.resolve sys file facts).1.length
      = facts.length
        + (powershell_resolver.run_script sys file).lines.countP
            (fun line => line.data.contains '=') ∧
    (∀ (acc : added_facts) (rest : List Char),
      powershell_resolver.callback acc ⟨'=' :: rest⟩
        = (acc ++ [("", string_value ⟨rest⟩)], true)) ∧
    (powershell_resolver.resolve repeated_key_windows "facts.ps1" []).1
      = [("a", string_value "1"), ("a", string_value "2"), ("", string_value "x")] := by
  refine ⟨fun acc line => (callback_continues acc line).1,
    fun lines acc => each_line_callback lines acc,
    fun lines acc => each_line_callback_length lines acc, ?_, ?_, by decide⟩
  · have hfst : (powershell_resolver.resolve sys file facts).1
        = each_line (powershell_resolver.run_script sys file).lines
            powershell_resolver.callback facts := by
      cases hfail : (powershell_resolver.run_script sys file).failure with
      | none => simp only [powershell_resolver.resolve, hfail]
      | some what => simp only [powershell_resolver.resolve, hfail]
    rw [hfst, each_line_callback_length]
  · intro acc rest
    exact (callback_eq acc).2 [] rest (List.not_mem_nil _)
